import Mathlib

/-!
Verification development for the PoorGo compiler core (lexer, parser,
semantic analyzer, LLVM IR generator).  Each component of the TypeScript
source is shallowly embedded as executable Lean definitions: the mutable
instance fields become explicit state records, thrown exceptions become
`Except` results, and `while` loops become recursive loop functions
(fuelled where the source loop is not obviously terminating).
-/

set_option maxHeartbeats 1000000
set_option maxRecDepth 8192

deriving instance DecidableEq for Except

namespace PoorGo

/-! ## Tokens (src/lexer/token.ts) -/

inductive TokenType where
  | ILLEGAL | EOF
  | IDENT | INT | STRING
  | ASSIGN | PLUS | MINUS | BANG | ASTERISK | SLASH
  | EQ | NOT_EQ | LT | GT | LTE | GTE
  | COMMA | SEMICOLON | COLON
  | LPAREN | RPAREN | LBRACE | RBRACE
  | FUNC | RETURN | IF | ELSE | FOR | VAR
  | INT_TYPE | STRING_TYPE | BOOL_TYPE
  | TRUE | FALSE
  | PACKAGE
  deriving DecidableEq, Repr

/-- The string value of each member of the TypeScript `TokenType` enum
(used when token types are interpolated into error messages). -/
def ttStr : TokenType → String
  | .ILLEGAL => "ILLEGAL"
  | .EOF => "EOF"
  | .IDENT => "IDENT"
  | .INT => "INT"
  | .STRING => "STRING"
  | .ASSIGN => "="
  | .PLUS => "+"
  | .MINUS => "-"
  | .BANG => "!"
  | .ASTERISK => "*"
  | .SLASH => "/"
  | .EQ => "=="
  | .NOT_EQ => "!="
  | .LT => "<"
  | .GT => ">"
  | .LTE => "<="
  | .GTE => ">="
  | .COMMA => ","
  | .SEMICOLON => ";"
  | .COLON => ":"
  | .LPAREN => "("
  | .RPAREN => ")"
  | .LBRACE => "\x7b"
  | .RBRACE => "\x7d"
  | .FUNC => "FUNC"
  | .RETURN => "RETURN"
  | .IF => "IF"
  | .ELSE => "ELSE"
  | .FOR => "FOR"
  | .VAR => "VAR"
  | .INT_TYPE => "INT_TYPE"
  | .STRING_TYPE => "STRING_TYPE"
  | .BOOL_TYPE => "BOOL_TYPE"
  | .TRUE => "TRUE"
  | .FALSE => "FALSE"
  | .PACKAGE => "PACKAGE"

structure Token where
  type : TokenType
  literal : String
  line : Nat
  column : Nat
  deriving DecidableEq, Repr

/-- The keyword map of src/lexer/token.ts. -/
def KEYWORDS : List (String × TokenType) :=
  [("func", .FUNC), ("return", .RETURN), ("if", .IF), ("else", .ELSE),
   ("for", .FOR), ("var", .VAR), ("int", .INT_TYPE), ("string", .STRING_TYPE),
   ("bool", .BOOL_TYPE), ("true", .TRUE), ("false", .FALSE),
   ("package", .PACKAGE)]

/-- `lookupIdent`: keyword lookup falling back to `IDENT`. -/
def lookupIdent (ident : String) : TokenType :=
  (KEYWORDS.lookup ident).getD .IDENT

/-! ## AST (src/parser/ast.ts) -/

structure Location where
  line : Nat
  column : Nat
  deriving DecidableEq, Repr

inductive TypeType where
  | int | string | bool
  deriving DecidableEq, Repr

def TypeType.str : TypeType → String
  | .int => "int"
  | .string => "string"
  | .bool => "bool"

structure TypeNode where
  typeType : TypeType
  location : Location
  deriving DecidableEq, Repr

structure Parameter where
  name : String
  type : TypeNode
  location : Location
  deriving DecidableEq, Repr

/-- The `Identifier` AST node (a name plus its source location). -/
structure IdentifierNode where
  value : String
  location : Location
  deriving DecidableEq, Repr

inductive Expression where
  | Identifier (id : IdentifierNode)
  | IntegerLiteral (value : Int) (location : Location)
  | StringLiteral (value : String) (location : Location)
  | BooleanLiteral (value : Bool) (location : Location)
  | PrefixExpression (operator : String) (right : Expression) (location : Location)
  | InfixExpression (operator : String) (left : Expression) (right : Expression)
      (location : Location)
  | CallExpression (function : IdentifierNode) (arguments : List Expression)
      (location : Location)
  deriving Repr

/-- The `type` tag string carried by each expression node in the source. -/
def Expression.tag : Expression → String
  | .Identifier _ => "Identifier"
  | .IntegerLiteral _ _ => "IntegerLiteral"
  | .StringLiteral _ _ => "StringLiteral"
  | .BooleanLiteral _ _ => "BooleanLiteral"
  | .PrefixExpression _ _ _ => "PrefixExpression"
  | .InfixExpression _ _ _ _ => "InfixExpression"
  | .CallExpression _ _ _ => "CallExpression"

def Expression.location : Expression → Location
  | .Identifier id => id.location
  | .IntegerLiteral _ l => l
  | .StringLiteral _ l => l
  | .BooleanLiteral _ l => l
  | .PrefixExpression _ _ l => l
  | .InfixExpression _ _ _ l => l
  | .CallExpression _ _ l => l

mutual
inductive Statement where
  | ExpressionStatement (expression : Expression) (location : Location)
  | ReturnStatement (returnValue : Expression) (location : Location)
  | IfStatement (condition : Expression) (consequence : BlockStatement)
      (alternative : Option BlockStatement) (location : Location)
  | ForStatement (init : Option Statement) (condition : Option Expression)
      (update : Option Expression) (body : BlockStatement) (location : Location)
  | VariableDeclarationStmt (name : String) (declType : Option TypeNode)
      (init : Expression) (location : Location)
  deriving Repr

inductive BlockStatement where
  | mk (statements : List Statement) (location : Location)
  deriving Repr
end

def BlockStatement.statements : BlockStatement → List Statement
  | .mk s _ => s

inductive Declaration where
  | FunctionDeclaration (name : String) (parameters : List Parameter)
      (returnType : Option TypeNode) (body : BlockStatement) (location : Location)
  | VariableDeclaration (name : String) (declType : Option TypeNode)
      (init : Expression) (location : Location)
  deriving Repr

/-- The `type` tag string of a top-level declaration node. -/
def Declaration.tag : Declaration → String
  | .FunctionDeclaration _ _ _ _ _ => "FunctionDeclaration"
  | .VariableDeclaration _ _ _ _ => "VariableDeclaration"

structure Program where
  package : String
  declarations : List Declaration
  location : Location
  deriving Repr

/-! ## Semantic analyzer (src/semantic/analyzer.ts, current variant)

The analyzer is a class whose only mutable field is `scopeStack`
(an array of maps, innermost scope pushed last).  We model the stack as a
list with the innermost scope at the head, scope maps as association
lists, thrown `SemanticError`s as `.semantic` results and thrown plain
`Error`s as `.internal` results.  Methods that can mutate the stack
return the stack that the instance holds when the method returns or
throws (a thrown exception leaves the mutated stack in place). -/

inductive SemType where
  | void | int | string | bool | unknown
  deriving DecidableEq, Repr

def SemType.str : SemType → String
  | .void => "void"
  | .int => "int"
  | .string => "string"
  | .bool => "bool"
  | .unknown => "unknown"

structure FunctionType where
  parameters : List SemType
  returnType : SemType
  deriving DecidableEq, Repr

inductive AError where
  | semantic (message : String) (location : Location)
  | internal (message : String)
  deriving DecidableEq, Repr

abbrev Scope := List (String × SemType)
abbrev Scopes := List Scope

def pushScope (st : Scopes) : Scopes := [] :: st

/-- The message of the plain `Error` thrown when popping an empty stack. -/
def popErrMsg : String := "Internal error: Cannot pop empty scope stack"

def popScope (st : Scopes) : Except AError Scopes :=
  match st with
  | [] => .error (.internal popErrMsg)
  | _ :: rest => .ok rest

/-- `resolve` walks the scope stack from the innermost scope outwards and
throws a plain `Error` when the name is undefined. -/
def resolve (st : Scopes) (name : String) : Except AError SemType :=
  match st with
  | [] => .error (.internal ("Undefined variable: " ++ name))
  | scope :: rest =>
    match scope.lookup name with
    | some t => .ok t
    | none => resolve rest name

/-- `builtinFunctions`: the fixed built-in signature table
(`print` accepts one `string` or one `int` and returns `void`). -/
def builtinFunctions (name : String) : Option FunctionType :=
  if name = "print" then some ⟨[.string, .int], .void⟩ else none

theorem Location.sizeOf_pos (loc : Location) : 0 < sizeOf loc := by
  cases loc
  simp only [Location.mk.sizeOf_spec]
  omega

/-- `inferType` with the mutual recursion flattened: in the TS source,
`inferType` dispatches `CallExpression` to `checkCallExpression` and
`InfixExpression` to `checkInfixExpression`, which recurse back into
`inferType` on subexpressions.  Here the two method bodies are inlined at
their dispatch sites so that the recursion is structural; the standalone
definitions `checkCallExpression` and `checkInfixExpression` below restate
the two methods verbatim and agree with the inlined branches by `rfl`
(`inferType_call_eq` and `inferType_infix_eq`). -/
def inferType (st : Scopes) : Expression → Except AError SemType
  | .StringLiteral _ _ => .ok .string
  | .IntegerLiteral _ _ => .ok .int
  | .BooleanLiteral _ _ => .ok .bool
  | .Identifier id => resolve st id.value
  | .CallExpression f args loc =>
    match builtinFunctions f.value with
    | none => .error (.semantic ("Undefined function: " ++ f.value) loc)
    | some funcType =>
      if args.length ≠ 1 then
        .error (.semantic ("Function " ++ f.value ++
          " expects 1 argument, but got " ++ toString args.length) loc)
      else
        match args with
        | [] =>
          .error (.semantic ("Function " ++ f.value ++
            " expects 1 argument, but none was provided") loc)
        | arg :: _ =>
          match inferType st arg with
          | .error e => .error e
          | .ok argType =>
            if funcType.parameters.contains argType then
              .ok funcType.returnType
            else
              .error (.semantic ("Cannot print value of type " ++ argType.str)
                arg.location)
  | .InfixExpression op l r loc =>
    match inferType st l with
    | .error e => .error e
    | .ok leftType =>
      match inferType st r with
      | .error e => .error e
      | .ok rightType =>
        match op with
        | "+" | "-" | "*" | "/" =>
          if leftType ≠ .int ∨ rightType ≠ .int then
            .error (.semantic ("Cannot perform arithmetic operation '" ++ op ++
              "' on types " ++ leftType.str ++ " and " ++ rightType.str) loc)
          else
            .ok .int
        | _ => .error (.semantic ("Operator not yet supported: " ++ op) loc)
  | .PrefixExpression _ _ loc =>
      .error (.semantic ("Expression type not yet supported: PrefixExpression") loc)

/-- `checkInfixExpression`: both operands are typed, the four arithmetic
operators require both to be `int`, any other operator is rejected. -/
def checkInfixExpression (st : Scopes) (operator : String)
    (left right : Expression) (location : Location) : Except AError SemType :=
  match inferType st left with
  | .error e => .error e
  | .ok leftType =>
    match inferType st right with
    | .error e => .error e
    | .ok rightType =>
      match operator with
      | "+" | "-" | "*" | "/" =>
        if leftType ≠ .int ∨ rightType ≠ .int then
          .error (.semantic ("Cannot perform arithmetic operation '" ++
            operator ++ "' on types " ++ leftType.str ++ " and " ++
            rightType.str) location)
        else
          .ok .int
      | _ => .error (.semantic ("Operator not yet supported: " ++ operator)
          location)

/-- `checkCallExpression`: only the built-in table can be called, the
callee takes exactly one argument whose type must be accepted. -/
def checkCallExpression (st : Scopes) (function : IdentifierNode)
    (arguments : List Expression) (location : Location) :
    Except AError SemType :=
  match builtinFunctions function.value with
  | none => .error (.semantic ("Undefined function: " ++ function.value)
      location)
  | some funcType =>
    if arguments.length ≠ 1 then
      .error (.semantic ("Function " ++ function.value ++
        " expects 1 argument, but got " ++ toString arguments.length) location)
    else
      match arguments with
      | [] =>
        .error (.semantic ("Function " ++ function.value ++
          " expects 1 argument, but none was provided") location)
      | arg :: _ =>
        match inferType st arg with
        | .error e => .error e
        | .ok argType =>
          if funcType.parameters.contains argType then
            .ok funcType.returnType
          else
            .error (.semantic ("Cannot print value of type " ++ argType.str)
              arg.location)

/-- `inferType` dispatches a call expression exactly as the standalone
`checkCallExpression`. -/
theorem inferType_call_eq (st : Scopes) (f : IdentifierNode)
    (args : List Expression) (loc : Location) :
    inferType st (.CallExpression f args loc) =
      checkCallExpression st f args loc := by
  unfold inferType checkCallExpression
  rfl


/-- `inferType` dispatches an infix expression exactly as the standalone
`checkInfixExpression`. -/
theorem inferType_infix_eq (st : Scopes) (op : String) (l r : Expression)
    (loc : Location) :
    inferType st (.InfixExpression op l r loc) =
      checkInfixExpression st op l r loc := by
  unfold inferType checkInfixExpression
  rfl


def analyzeStatement (st : Scopes) : Statement → Except AError Unit
  | .ExpressionStatement e _ => do
      let _ ← inferType st e
      .ok ()
  | _ => .ok ()

def analyzeStatements (st : Scopes) : List Statement → Except AError Unit
  | [] => .ok ()
  | s :: rest => do
      analyzeStatement st s
      analyzeStatements st rest

/-- `analyzeFunctionDeclaration`: push a scope, validate the `main` shape,
analyze the body, pop the scope.  The returned stack is the instance's
stack when the method returns or throws. -/
def analyzeFunctionDeclaration (st : Scopes) (name : String)
    (parameters : List Parameter) (returnType : Option TypeNode)
    (body : BlockStatement) (location : Location) :
    Except AError Unit × Scopes :=
  if name = "main" ∧ parameters ≠ [] then
    (.error (.semantic "main function cannot have parameters" location),
     pushScope st)
  else if name = "main" ∧ returnType ≠ none then
    (.error (.semantic "main function cannot have explicit return type" location),
     pushScope st)
  else
    match analyzeStatements (pushScope st) body.statements with
    | .error e => (.error e, pushScope st)
    | .ok _ =>
      match popScope (pushScope st) with
      | .error e => (.error e, pushScope st)
      | .ok st2 => (.ok (), st2)

def analyzeDeclarations (st : Scopes) : List Declaration →
    Except AError Unit × Scopes
  | [] => (.ok (), st)
  | d :: rest =>
    match d with
    | .FunctionDeclaration n p r b l =>
      match analyzeFunctionDeclaration st n p r b l with
      | (.ok _, st2) => analyzeDeclarations st2 rest
      | (.error e, st2) => (.error e, st2)
    | .VariableDeclaration _ _ _ l =>
      (.error (.semantic ("Unsupported declaration type: " ++ d.tag) l), st)

/-- `analyze`: entry point.  A fresh analyzer instance starts with an empty
scope stack; `analyze` pushes the program scope, validates the package
name, analyzes the declarations and pops the program scope. -/
def analyze (program : Program) : Except AError Unit × Scopes :=
  if program.package ≠ "main" then
    (.error (.semantic "Package must be \"main\"" ⟨1, 1⟩), pushScope [])
  else
    match analyzeDeclarations (pushScope []) program.declarations with
    | (.ok _, st2) =>
      match popScope st2 with
      | .error e => (.error e, st2)
      | .ok st3 => (.ok (), st3)
    | (.error e, st2) => (.error e, st2)

/-! ### Concrete programs used by the analyzer claims -/

def l11 : Location := ⟨1, 1⟩

/-- AST of `package main · func main() { print("hello" + 3) }`. -/
def progPrintStrPlusInt : Program :=
  ⟨"main",
   [.FunctionDeclaration "main" [] none
     (.mk [.ExpressionStatement
       (.CallExpression ⟨"print", l11⟩
         [.InfixExpression "+" (.StringLiteral "hello" l11) (.IntegerLiteral 3 l11) l11]
         l11) l11] l11) l11],
   l11⟩

/-- AST of `package main · func main(x int) { }`. -/
def progMainParam : Program :=
  ⟨"main",
   [.FunctionDeclaration "main" [⟨"x", ⟨.int, l11⟩, l11⟩] none (.mk [] l11) l11],
   l11⟩

/-- AST of `package main · func main() { }`. -/
def progMainOk : Program :=
  ⟨"main", [.FunctionDeclaration "main" [] none (.mk [] l11) l11], l11⟩

/-! ### Helper lemmas about the analyzer -/

/-- A successful `analyzeFunctionDeclaration` restores the scope stack. -/
theorem afd_ok_state (st : Scopes) (n : String) (p : List Parameter)
    (r : Option TypeNode) (b : BlockStatement) (l : Location) (u : Unit)
    (st2 : Scopes) (h : analyzeFunctionDeclaration st n p r b l = (.ok u, st2)) :
    st2 = st := by
  unfold analyzeFunctionDeclaration at h
  split at h
  · simp at h
  · split at h
    · simp at h
    · split at h
      · simp at h
      · simp [popScope, pushScope] at h
        exact h.symm

/-- A failing `analyzeFunctionDeclaration` leaves the pushed scope behind. -/
theorem afd_err_state (st : Scopes) (n : String) (p : List Parameter)
    (r : Option TypeNode) (b : BlockStatement) (l : Location) (e : AError)
    (st2 : Scopes) (h : analyzeFunctionDeclaration st n p r b l = (.error e, st2)) :
    st2 = pushScope st := by
  unfold analyzeFunctionDeclaration at h
  split at h
  · injection h with h1 h2
    exact h2.symm
  · split at h
    · injection h with h1 h2
      exact h2.symm
    · split at h
      · injection h with h1 h2
        exact h2.symm
      · split at h
        · injection h with h1 h2
          exact h2.symm
        · simp at h

/-- A successful `analyzeDeclarations` restores the scope stack. -/
theorem decls_ok_state : ∀ (ds : List Declaration) (st : Scopes) (u : Unit)
    (st2 : Scopes), analyzeDeclarations st ds = (.ok u, st2) → st2 = st := by
  intro ds
  induction ds with
  | nil =>
    intro st u st2 h
    simpa [analyzeDeclarations] using congrArg Prod.snd h |>.symm
  | cons d rest ih =>
    intro st u st2 h
    unfold analyzeDeclarations at h
    split at h
    · split at h
      · rename_i u2 stMid hfd
        have hst := afd_ok_state _ _ _ _ _ _ _ _ hfd
        subst hst
        exact ih _ u st2 h
      · simp at h
    · simp at h

theorem undef_ne_pop (x : String) :
    ("Undefined variable: " ++ x) ≠ popErrMsg := by
  intro h
  have h3 : ("Undefined variable: " ++ x).data.head? = popErrMsg.data.head? :=
    congrArg (fun s => s.data.head?) h
  have h4 : (some 'U' : Option Char) = some 'I' := h3
  exact absurd h4 (by decide)

theorem resolve_not_pop (st : Scopes) (name : String) (e : AError)
    (h : resolve st name = .error e) : e ≠ .internal popErrMsg := by
  induction st with
  | nil =>
    simp [resolve] at h
    subst h
    intro hc
    exact undef_ne_pop name (AError.internal.inj hc)
  | cons scope rest ih =>
    unfold resolve at h
    split at h
    · simp at h
    · exact ih h

/-- No error produced by type inference is the empty-pop internal error. -/
theorem infer_not_pop : ∀ (n : Nat) (e : Expression) (st : Scopes) (err : AError),
    sizeOf e ≤ n → inferType st e = .error err → err ≠ .internal popErrMsg := by
  intro n
  induction n with
  | zero =>
    intro e
    cases e <;> (intro st err hle; simp at hle)
  | succ n ih =>
    intro e st err hle h
    match e with
    | .StringLiteral v l => simp [inferType] at h
    | .IntegerLiteral v l => simp [inferType] at h
    | .BooleanLiteral v l => simp [inferType] at h
    | .Identifier id =>
      rw [inferType] at h
      exact resolve_not_pop st id.value err h
    | .PrefixExpression op r l =>
      rw [inferType] at h
      injection h with h2
      subst h2
      simp
    | .InfixExpression op l r loc =>
      rw [inferType] at h
      cases hL : inferType st l with
      | error eL =>
        rw [hL] at h
        simp only [Bind.bind, Except.bind] at h
        injection h with h2
        subst h2
        have hsz : sizeOf l ≤ n := by
          have := Expression.InfixExpression.sizeOf_spec op l r loc
          omega
        exact ih l st _ hsz hL
      | ok tL =>
        rw [hL] at h
        simp only [Bind.bind, Except.bind] at h
        cases hR : inferType st r with
        | error eR =>
          rw [hR] at h
          simp only [Bind.bind, Except.bind] at h
          injection h with h2
          subst h2
          have hsz : sizeOf r ≤ n := by
            have := Expression.InfixExpression.sizeOf_spec op l r loc
            omega
          exact ih r st _ hsz hR
        | ok tR =>
          rw [hR] at h
          simp only [Bind.bind, Except.bind] at h
          split at h <;>
            first
              | (split at h
                 · injection h with h2
                   subst h2
                   simp
                 · simp at h)
              | (injection h with h2
                 subst h2
                 simp)
    | .CallExpression f args loc =>
      rw [inferType] at h
      split at h
      · injection h with h2
        subst h2
        simp
      · split at h
        · injection h with h2
          subst h2
          simp
        · split at h
          · injection h with h2
            subst h2
            simp
          · rename_i funcType hlen arguments arg rest hargs
            cases hA : inferType st arg with
            | error eA =>
              rw [hA] at h
              simp only [Bind.bind, Except.bind] at h
              injection h with h2
              subst h2
              have hsz : sizeOf arg ≤ n := by
                have h1 := Expression.CallExpression.sizeOf_spec f (arg :: rest) loc
                have h2 := List.cons.sizeOf_spec arg rest
                omega
              exact ih arg st _ hsz hA
            | ok tA =>
              rw [hA] at h
              simp only [Bind.bind, Except.bind] at h
              split at h
              · simp at h
              · injection h with h2
                subst h2
                simp

theorem stmt_not_pop (st : Scopes) (s : Statement) (e : AError)
    (h : analyzeStatement st s = .error e) : e ≠ .internal popErrMsg := by
  cases s with
  | ExpressionStatement ex l =>
    simp only [analyzeStatement] at h
    cases hI : inferType st ex with
    | error e2 =>
      rw [hI] at h
      simp only [Bind.bind, Except.bind] at h
      injection h with h2
      subst h2
      exact infer_not_pop (sizeOf ex) ex st _ le_rfl hI
    | ok t =>
      rw [hI] at h
      simp [Bind.bind, Except.bind] at h
  | ReturnStatement rv l => simp [analyzeStatement] at h
  | IfStatement c cs a l => simp [analyzeStatement] at h
  | ForStatement i c u b l => simp [analyzeStatement] at h
  | VariableDeclarationStmt n t i l => simp [analyzeStatement] at h

theorem stmts_not_pop : ∀ (ss : List Statement) (st : Scopes) (e : AError),
    analyzeStatements st ss = .error e → e ≠ .internal popErrMsg := by
  intro ss
  induction ss with
  | nil => intro st e h; simp [analyzeStatements] at h
  | cons s rest ih =>
    intro st e h
    simp only [analyzeStatements] at h
    cases hS : analyzeStatement st s with
    | error e2 =>
      rw [hS] at h
      simp only [Bind.bind, Except.bind] at h
      injection h with h2
      subst h2
      exact stmt_not_pop st s _ hS
    | ok u =>
      rw [hS] at h
      simp only [Bind.bind, Except.bind] at h
      exact ih st e h

theorem afd_not_pop (st : Scopes) (n : String) (p : List Parameter)
    (r : Option TypeNode) (b : BlockStatement) (l : Location) (e : AError)
    (s2 : Scopes) (h : analyzeFunctionDeclaration st n p r b l = (.error e, s2)) :
    e ≠ .internal popErrMsg := by
  unfold analyzeFunctionDeclaration at h
  split at h
  · injection h with h1 h2
    injection h1 with h1
    subst h1
    simp
  · split at h
    · injection h with h1 h2
      injection h1 with h1
      subst h1
      simp
    · split at h
      · rename_i e2 hstmts
        injection h with h1 h2
        injection h1 with h1
        subst h1
        exact stmts_not_pop b.statements (pushScope st) _ hstmts
      · split at h
        · rename_i e2 hpop
          simp [popScope, pushScope] at hpop
        · simp at h

theorem decls_not_pop : ∀ (ds : List Declaration) (st : Scopes) (e : AError)
    (s2 : Scopes), analyzeDeclarations st ds = (.error e, s2) →
    e ≠ .internal popErrMsg := by
  intro ds
  induction ds with
  | nil => intro st e s2 h; simp [analyzeDeclarations] at h
  | cons d rest ih =>
    intro st e s2 h
    unfold analyzeDeclarations at h
    split at h
    · split at h
      · exact ih _ e s2 h
      · rename_i e2 stMid hfd
        injection h with h1 h2
        injection h1 with h1
        subst h1
        exact afd_not_pop _ _ _ _ _ _ _ _ hfd
    · injection h with h1 h2
      injection h1 with h1
      subst h1
      simp

/-! ## Claims about the semantic analyzer -/

/-- C5: semantic analysis of an infix expression with operator `+`, `-`, `*`
or `/` whose operands infer to types `lt` and `rt` succeeds exactly when both
operands have type `int` (and then the expression has type `int`); otherwise
it throws a semantic error naming both operand types; an infix expression
with any other operator throws the explicit unsupported-operator error; and
analyzing `print("hello" + 3)` fails with the message
"Cannot perform arithmetic operation '+' on types string and int". -/
theorem C5_infix_arithmetic_typing :
    (∀ (st : Scopes) (op : String) (l r : Expression) (loc : Location)
       (lt rt : SemType),
       inferType st l = .ok lt → inferType st r = .ok rt →
       (op = "+" ∨ op = "-" ∨ op = "*" ∨ op = "/") →
       ((checkInfixExpression st op l r loc = .ok .int ↔ lt = .int ∧ rt = .int) ∧
        (¬(lt = .int ∧ rt = .int) →
          checkInfixExpression st op l r loc =
            .error (.semantic ("Cannot perform arithmetic operation '" ++ op ++
              "' on types " ++ lt.str ++ " and " ++ rt.str) loc)))) ∧
    (∀ (st : Scopes) (op : String) (l r : Expression) (loc : Location)
       (lt rt : SemType),
       inferType st l = .ok lt → inferType st r = .ok rt →
       op ≠ "+" → op ≠ "-" → op ≠ "*" → op ≠ "/" →
       checkInfixExpression st op l r loc =
         .error (.semantic ("Operator not yet supported: " ++ op) loc)) ∧
    analyze progPrintStrPlusInt =
      (.error (.semantic
        "Cannot perform arithmetic operation '+' on types string and int" l11),
       [[], []]) := by
  refine ⟨?_, ?_, ?_⟩
  · intro st op l r loc lt rt hL hR hop
    unfold checkInfixExpression
    rw [hL, hR]
    simp only [Bind.bind, Except.bind]
    rcases hop with rfl | rfl | rfl | rfl <;>
      by_cases hl : lt = SemType.int <;> by_cases hr : rt = SemType.int <;>
        simp [hl, hr]
  · intro st op l r loc lt rt hL hR h1 h2 h3 h4
    unfold checkInfixExpression
    rw [hL, hR]
    simp only [Bind.bind, Except.bind]
  · decide

/-- Witness for C5: instantiated at `"hello" + 3` (types string and int)
and at the unsupported operator `%` on two int literals. -/
theorem C5_witness :
    checkInfixExpression [] "+" (.StringLiteral "hello" l11)
        (.IntegerLiteral 3 l11) l11 =
      .error (.semantic
        "Cannot perform arithmetic operation '+' on types string and int" l11) ∧
    checkInfixExpression [] "%" (.IntegerLiteral 1 l11)
        (.IntegerLiteral 2 l11) l11 =
      .error (.semantic "Operator not yet supported: %" l11) := by
  constructor
  · have h := (C5_infix_arithmetic_typing.1 [] "+" (.StringLiteral "hello" l11)
      (.IntegerLiteral 3 l11) l11 .string .int (by decide)
      (by decide) (Or.inl rfl)).2 (by simp)
    simpa [SemType.str] using h
  · have h := C5_infix_arithmetic_typing.2.1 [] "%" (.IntegerLiteral 1 l11)
      (.IntegerLiteral 2 l11) l11 .int .int (by decide)
      (by decide) (by decide) (by decide) (by decide) (by decide)
    simpa using h

/-- C9: a function named `main` declared with parameters fails with
"main function cannot have parameters"; one with an explicit return type
fails with "main function cannot have explicit return type"; a `main` with
zero parameters and no declared return type passes both checks; and the
program `package main · func main(x int) { }` fails semantic analysis with
the first message. -/
theorem C9_main_entry_shape :
    (∀ (st : Scopes) (params : List Parameter) (rt : Option TypeNode)
       (body : BlockStatement) (loc : Location), params ≠ [] →
       analyzeFunctionDeclaration st "main" params rt body loc =
         (.error (.semantic "main function cannot have parameters" loc),
          pushScope st)) ∧
    (∀ (st : Scopes) (t : TypeNode) (body : BlockStatement) (loc : Location),
       analyzeFunctionDeclaration st "main" [] (some t) body loc =
         (.error (.semantic "main function cannot have explicit return type" loc),
          pushScope st)) ∧
    (∀ (st : Scopes) (loc loc2 : Location),
       analyzeFunctionDeclaration st "main" [] none (.mk [] loc2) loc =
         (.ok (), st)) ∧
    analyze progMainParam =
      (.error (.semantic "main function cannot have parameters" l11),
       [[], []]) := by
  refine ⟨?_, ?_, ?_, ?_⟩
  · intro st params rt body loc hp
    simp [analyzeFunctionDeclaration, hp]
  · intro st t body loc
    simp [analyzeFunctionDeclaration]
  · intro st loc loc2
    simp [analyzeFunctionDeclaration, analyzeStatements, BlockStatement.statements,
      popScope, pushScope]
  · decide

/-- Witness for C9: instantiated at a one-parameter `main`. -/
theorem C9_witness :
    analyzeFunctionDeclaration [] "main" [⟨"x", ⟨.int, l11⟩, l11⟩] none
        (.mk [] l11) l11 =
      (.error (.semantic "main function cannot have parameters" l11), [[]]) := by
  have h := C9_main_entry_shape.1 [] [⟨"x", ⟨.int, l11⟩, l11⟩] none
    (.mk [] l11) l11 (by decide)
  simpa [pushScope] using h

/-- C10: a `print` call whose single argument infers to type `bool` fails
with exactly the message "Cannot print value of type bool"; the only call
expression that can type-check targets the built-in `print`; and an infix
expression type-checks only when both operands have type `int` — so no
built-in or operator accepts a boolean value. -/
theorem C10_bool_not_printable :
    (∀ (st : Scopes) (fn : IdentifierNode) (e : Expression) (loc : Location),
       fn.value = "print" → inferType st e = .ok .bool →
       checkCallExpression st fn [e] loc =
         .error (.semantic "Cannot print value of type bool" e.location)) ∧
    (∀ (st : Scopes) (fn : IdentifierNode) (args : List Expression)
       (loc : Location) (t : SemType),
       checkCallExpression st fn args loc = .ok t → fn.value = "print") ∧
    (∀ (st : Scopes) (op : String) (l r : Expression) (loc : Location)
       (t : SemType), checkInfixExpression st op l r loc = .ok t →
       inferType st l = .ok .int ∧ inferType st r = .ok .int) := by
  refine ⟨?_, ?_, ?_⟩
  · intro st fn e loc hfn hE
    unfold checkCallExpression
    rw [hfn]
    simp only [builtinFunctions, if_pos rfl]
    rw [hE]
    simp [Bind.bind, Except.bind, SemType.str]
  · intro st fn args loc t h
    unfold checkCallExpression at h
    split at h
    · simp at h
    · rename_i ft hft
      unfold builtinFunctions at hft
      split at hft
      · assumption
      · simp at hft
  · intro st op l r loc t h
    unfold checkInfixExpression at h
    cases hL : inferType st l with
    | error eL => rw [hL] at h; simp [Bind.bind, Except.bind] at h
    | ok tL =>
      rw [hL] at h
      simp only [Bind.bind, Except.bind] at h
      cases hR : inferType st r with
      | error eR => rw [hR] at h; simp [Bind.bind, Except.bind] at h
      | ok tR =>
        rw [hR] at h
        simp only [Bind.bind, Except.bind] at h
        split at h
        · split at h
          · simp at h
          · rename_i hc
            push_neg at hc
            simp [hL, hR, hc.1, hc.2]
        · split at h
          · simp at h
          · rename_i hc
            push_neg at hc
            simp [hL, hR, hc.1, hc.2]
        · split at h
          · simp at h
          · rename_i hc
            push_neg at hc
            simp [hL, hR, hc.1, hc.2]
        · split at h
          · simp at h
          · rename_i hc
            push_neg at hc
            simp [hL, hR, hc.1, hc.2]
        · simp at h

/-- Witness for C10: instantiated at `print(true)`. -/
theorem C10_witness :
    checkCallExpression [] ⟨"print", l11⟩ [.BooleanLiteral true l11] l11 =
      .error (.semantic "Cannot print value of type bool" l11) := by
  have h := C10_bool_not_printable.1 [] ⟨"print", l11⟩ (.BooleanLiteral true l11)
    l11 rfl (by decide)
  simpa [Expression.location] using h

/-- C8 (amended): the scope stack is balanced on every successful run of
`analyze` (one push at program entry and one per function body, each matched
by exactly one pop, ending with an empty stack), and the guard rejecting a
pop of an empty stack is never reached on any input program; however, a
thrown semantic error propagates past the pops, so a failed `analyze` leaves
the pushed scopes on the stack. -/
theorem C8_scope_stack_balance :
    (∀ (p : Program) (u : Unit) (s : Scopes), analyze p = (.ok u, s) → s = []) ∧
    (∀ (st : Scopes) (n : String) (pr : List Parameter) (r : Option TypeNode)
       (b : BlockStatement) (l : Location) (u : Unit) (s : Scopes),
       analyzeFunctionDeclaration st n pr r b l = (.ok u, s) → s = st) ∧
    (∀ (p : Program) (e : AError) (s : Scopes),
       analyze p = (.error e, s) → e ≠ .internal popErrMsg) := by
  refine ⟨?_, ?_, ?_⟩
  · intro p u s h
    unfold analyze at h
    split at h
    · simp at h
    · split at h
      · rename_i u2 st2 hdecls
        have hst : st2 = pushScope [] := decls_ok_state _ _ _ _ hdecls
        subst hst
        simp [popScope, pushScope] at h
        exact h
      · simp at h
  · intro st n pr r b l u s h
    exact afd_ok_state st n pr r b l u s h
  · intro p e s h
    unfold analyze at h
    split at h
    · injection h with h1 h2
      injection h1 with h1
      subst h1
      simp
    · split at h
      · rename_i u2 st2 hdecls
        have hst : st2 = pushScope [] := decls_ok_state _ _ _ _ hdecls
        subst hst
        simp [popScope, pushScope] at h
      · rename_i e2 st2 hdecls
        injection h with h1 h2
        injection h1 with h1
        subst h1
        exact decls_not_pop _ _ _ _ hdecls

/-- Witness for C8: the program `package main · func main() { }` analyzes
successfully and the theorem yields the empty final stack. -/
theorem C8_witness :
    analyze progMainOk = (.ok (), []) ∧ ([] : Scopes) = [] := by
  refine ⟨?_, ?_⟩
  · decide
  · exact C8_scope_stack_balance.1 progMainOk () [] (by decide)

/-- C8 counterexample: analyzing `package main · func main(x int) { }`
throws, and the analyzer's scope stack still holds the two pushed scopes
when `analyze` terminates — the claim that no outcome leaves a dangling
scope is false. -/
theorem C8_counterexample :
    analyze progMainParam =
      (.error (.semantic "main function cannot have parameters" l11),
       [[], []]) ∧
    ([[], []] : Scopes) ≠ [] := by
  constructor
  · decide
  · decide

/-! ## LLVM IR generator (src/codegen/generator.ts)

The generator is a class with fields `output` (the accumulated line list),
`varCounter` and `stringCounter`, all initialised by the constructor (which
also emits the module header).  Methods that mutate the instance take and
return a `GenState`; `emitIntegerExpression` can throw a plain `Error`,
modelled as `Except String`.  Literal `{` and `}` characters in IR text are
written `\x7b` and `\x7d`. -/

structure GenState where
  output : List String
  varCounter : Nat
  stringCounter : Nat
  deriving DecidableEq, Repr

def headerDecl : String := "declare i32 @printf(i8* nocapture readonly, ...)\n"

def headerFmt : String :=
  "@.str.fmt = private unnamed_addr constant [3 x i8] c\"%s\\00\", align 1\n"

/-- A fresh `LLVMGenerator` instance: zero counters, module header emitted. -/
def genInit : GenState := ⟨[headerDecl, headerFmt], 0, 0⟩

/-- `nextVar`: `%${++this.varCounter}`. -/
def nextVar (s : GenState) : String × GenState :=
  ("%" ++ toString (s.varCounter + 1), { s with varCounter := s.varCounter + 1 })

/-- `nextStringConst`: `@.str.${this.stringCounter++}`. -/
def nextStringConst (s : GenState) : String × GenState :=
  ("@.str." ++ toString s.stringCounter,
   { s with stringCounter := s.stringCounter + 1 })

/-- `processStringLiteral`: re-escape a string into IR hexadecimal notation,
returning the processed text and its byte length. -/
def processStringLiteral : List Char → String × Nat
  | [] => ("", 0)
  | '\\' :: c :: rest =>
    let pn := processStringLiteral rest
    match c with
    | 'n' => ("\\0A" ++ pn.1, pn.2 + 1)
    | 'r' => ("\\0D" ++ pn.1, pn.2 + 1)
    | 't' => ("\\09" ++ pn.1, pn.2 + 1)
    | '"' => ("\\\"" ++ pn.1, pn.2 + 1)
    | '\\' => ("\\\\" ++ pn.1, pn.2 + 1)
    | _ => ("\\" ++ String.singleton c ++ pn.1, pn.2 + 2)
  | c :: rest =>
    let pn := processStringLiteral rest
    (String.singleton c ++ pn.1, pn.2 + 1)

def processString (v : String) : String × Nat := processStringLiteral v.data

/-- `emitStringLiteral`: append a uniquely named global constant line. -/
def emitStringLiteral (s : GenState) (value : String) : String × GenState :=
  let pn := processString value
  let gid := nextStringConst s
  (gid.1,
   { gid.2 with output := gid.2.output ++
      [gid.1 ++ " = private unnamed_addr constant [" ++ toString (pn.2 + 1) ++
       " x i8] c\"" ++ pn.1 ++ "\\00\", align 1\n"] })

def defineLine : String := "define i32 @main() \x7b\n"
def entryLine : String := "entry:\n"
def retLine : String := "  ret i32 0\n"
def closeLine : String := "\x7d\n"

/-- `emitMainFunction`: wrap the statements in the single `@main` block. -/
def emitMainFunction (s : GenState) (statements : List String) : GenState :=
  { s with output := s.output ++ [defineLine, entryLine] ++
      statements.map (fun st => "  " ++ st) ++ [retLine, closeLine] }

/-- `emitIntegerExpression`: lower an integer expression, pushing arithmetic
instructions directly onto `output` and returning the value's text. -/
def emitIntegerExpression (s : GenState) : Expression →
    Except String (String × GenState)
  | .IntegerLiteral v _ => .ok (toString v, s)
  | .InfixExpression op l r _ =>
    match emitIntegerExpression s l with
    | .error e => .error e
    | .ok (left, s1) =>
      match emitIntegerExpression s1 r with
      | .error e => .error e
      | .ok (right, s2) =>
        let rv := nextVar s2
        match op with
        | "+" =>
          .ok (rv.1, { rv.2 with output := rv.2.output ++
            ["  " ++ rv.1 ++ " = add i32 " ++ left ++ ", " ++ right] })
        | _ => .error ("Unsupported operator: " ++ op)
  | e => .error ("Unsupported expression type: " ++ e.tag)

def intFmtName : String := "@.str.int.fmt"

def intFmtLine : String :=
  "@.str.int.fmt = private unnamed_addr constant [4 x i8] c\"%d\\0A\\00\", align 1"

/-- `emitPrint`: lower a `print` argument; a string argument becomes three
instructions against a fresh global, any other argument goes through
`emitIntegerExpression` and the `%d` format constant is `unshift`ed onto the
front of the output if absent. -/
def emitPrint (s : GenState) (expr : Expression) :
    Except String (List String × GenState) :=
  match expr with
  | .StringLiteral value _ =>
    let sv := emitStringLiteral s value
    let fmtPtr := nextVar sv.2
    let strPtr := nextVar fmtPtr.2
    let callResult := nextVar strPtr.2
    .ok ([fmtPtr.1 ++ " = getelementptr [3 x i8], [3 x i8]* @.str.fmt, i64 0, i64 0",
          strPtr.1 ++ " = getelementptr [" ++ toString (value.length + 1) ++
            " x i8], [" ++ toString (value.length + 1) ++ " x i8]* " ++ sv.1 ++
            ", i64 0, i64 0",
          callResult.1 ++ " = call i32 (i8*, ...) @printf(i8* " ++ fmtPtr.1 ++
            ", i8* " ++ strPtr.1 ++ ")"],
         callResult.2)
  | _ =>
    match emitIntegerExpression s expr with
    | .error e => .error e
    | .ok (intResult, s1) =>
      let callResult := nextVar s1
      let s3 := if callResult.2.output.contains intFmtLine then callResult.2
        else { callResult.2 with output := intFmtLine :: callResult.2.output }
      .ok ([callResult.1 ++ " = call i32 (i8*, ...) @printf(i8* getelementptr inbounds ([4 x i8], [4 x i8]* " ++
            intFmtName ++ ", i64 0, i64 0), i32 " ++ intResult ++ ")"],
           s3)

/-- The statement-collection phase of `generate`: only the first statement of
the first declaration is inspected, and only a `print` call is lowered. -/
def generateStatements (s : GenState) (ast : Program) :
    Except String (List String × GenState) :=
  match ast.declarations with
  | .FunctionDeclaration _ _ _ body _ :: _ =>
    match body.statements with
    | .ExpressionStatement expr _ :: _ =>
      match expr with
      | .CallExpression fn args _ =>
        if fn.value = "print" ∧ args.length > 0 then
          match args with
          | arg :: _ => emitPrint s arg
          | [] => .ok ([], s)
        else .ok ([], s)
      | _ => .ok ([], s)
    | _ => .ok ([], s)
  | _ => .ok ([], s)

/-- `generate`: collect the statements, wrap them in the `@main` block and
join the output lines with newlines. -/
def generate (s : GenState) (ast : Program) : Except String (String × GenState) :=
  match generateStatements s ast with
  | .error e => .error e
  | .ok (statements, s1) =>
    .ok (String.intercalate "\n" (emitMainFunction s1 statements).output,
         emitMainFunction s1 statements)

/-! ### Concrete programs and expected outputs for the generator claims -/

/-- AST of `package main · func main() { print("hello") }`. -/
def progPrintHello : Program :=
  ⟨"main",
   [.FunctionDeclaration "main" [] none
     (.mk [.ExpressionStatement
       (.CallExpression ⟨"print", l11⟩ [.StringLiteral "hello" l11] l11) l11] l11) l11],
   l11⟩

/-- AST of `package main · func main() { print("a") · print("b") }`. -/
def progTwoPrints : Program :=
  ⟨"main",
   [.FunctionDeclaration "main" [] none
     (.mk [.ExpressionStatement
            (.CallExpression ⟨"print", l11⟩ [.StringLiteral "a" l11] l11) l11,
           .ExpressionStatement
            (.CallExpression ⟨"print", l11⟩ [.StringLiteral "b" l11] l11) l11] l11) l11],
   l11⟩

/-- AST of `package main · func main() { print(5) }`. -/
def progPrintFive : Program :=
  ⟨"main",
   [.FunctionDeclaration "main" [] none
     (.mk [.ExpressionStatement
       (.CallExpression ⟨"print", l11⟩ [.IntegerLiteral 5 l11] l11) l11] l11) l11],
   l11⟩

/-- The output line list generated for a program whose first statement is
`print(<string literal v>)` (the `toString` spellings mirror the generator's
construction of the fresh names). -/
def strPrintOutput (v : String) : List String :=
  [headerDecl, headerFmt,
   "@.str." ++ toString 0 ++ " = private unnamed_addr constant [" ++
     toString ((processString v).2 + 1) ++ " x i8] c\"" ++ (processString v).1 ++
     "\\00\", align 1\n",
   defineLine, entryLine,
   "  " ++ ("%" ++ toString 1) ++
     " = getelementptr [3 x i8], [3 x i8]* @.str.fmt, i64 0, i64 0",
   "  " ++ ("%" ++ toString 2) ++ " = getelementptr [" ++ toString (v.length + 1) ++
     " x i8], [" ++ toString (v.length + 1) ++ " x i8]* " ++
     ("@.str." ++ toString 0) ++ ", i64 0, i64 0",
   "  " ++ ("%" ++ toString 3) ++ " = call i32 (i8*, ...) @printf(i8* " ++
     ("%" ++ toString 1) ++ ", i8* " ++ ("%" ++ toString 2) ++ ")",
   retLine, closeLine]

/-- The output line list generated for `print(<integer literal n>)`: the
`%d` format global sits in front of the `declare` line. -/
def intPrintOutput (n : Int) : List String :=
  [intFmtLine, headerDecl, headerFmt, defineLine, entryLine,
   "  " ++ ("%" ++ toString 1) ++
     " = call i32 (i8*, ...) @printf(i8* getelementptr inbounds ([4 x i8], [4 x i8]* " ++
     intFmtName ++ ", i64 0, i64 0), i32 " ++ toString n ++ ")",
   retLine, closeLine]

/-- The output line list generated for `print(<a> + <b>)`: the `add`
instruction is emitted before the `define` block. -/
def addPrintOutput (a b : Int) : List String :=
  [intFmtLine, headerDecl, headerFmt,
   "  " ++ ("%" ++ toString 1) ++ " = add i32 " ++ toString a ++ ", " ++ toString b,
   defineLine, entryLine,
   "  " ++ ("%" ++ toString 2) ++
     " = call i32 (i8*, ...) @printf(i8* getelementptr inbounds ([4 x i8], [4 x i8]* " ++
     intFmtName ++ ", i64 0, i64 0), i32 " ++ ("%" ++ toString 1) ++ ")",
   retLine, closeLine]

/-! ### Counter lemmas for the generator -/

theorem emitInt_counters : ∀ (n : Nat) (e : Expression) (s : GenState)
    (r : String) (s2 : GenState), sizeOf e ≤ n →
    emitIntegerExpression s e = .ok (r, s2) →
    s.varCounter ≤ s2.varCounter ∧ s.stringCounter ≤ s2.stringCounter := by
  intro n
  induction n with
  | zero => intro e; cases e <;> (intro s r s2 hle; simp at hle)
  | succ n ih =>
    intro e s r s2 hle h
    match e with
    | .Identifier id => simp [emitIntegerExpression] at h
    | .IntegerLiteral v l =>
      rw [emitIntegerExpression] at h
      injection h with hp
      injection hp with ha hb
      subst hb
      exact ⟨Nat.le_refl _, Nat.le_refl _⟩
    | .StringLiteral v l => simp [emitIntegerExpression] at h
    | .BooleanLiteral v l => simp [emitIntegerExpression] at h
    | .PrefixExpression op r2 l => simp [emitIntegerExpression] at h
    | .CallExpression f args l => simp [emitIntegerExpression] at h
    | .InfixExpression op l r2 loc =>
      rw [emitIntegerExpression] at h
      split at h
      · simp at h
      · rename_i left s1 hL
        split at h
        · simp at h
        · rename_i right s2' hR
          have hszl : sizeOf l ≤ n := by
            have := Expression.InfixExpression.sizeOf_spec op l r2 loc
            omega
          have hszr : sizeOf r2 ≤ n := by
            have := Expression.InfixExpression.sizeOf_spec op l r2 loc
            omega
          have i1 := ih l s left s1 hszl hL
          have i2 := ih r2 s1 right s2' hszr hR
          split at h
          · injection h with hp
            injection hp with ha hb
            subst hb
            exact ⟨Nat.le_trans i1.1 (Nat.le_trans i2.1 (Nat.le_succ _)),
                   Nat.le_trans i1.2 i2.2⟩
          · simp at h

theorem emitPrint_counters (s : GenState) (e : Expression) (ls : List String)
    (s2 : GenState) (h : emitPrint s e = .ok (ls, s2)) :
    s.varCounter ≤ s2.varCounter ∧ s.stringCounter ≤ s2.stringCounter := by
  unfold emitPrint at h
  split at h
  · injection h with hp
    injection hp with ha hb
    subst hb
    simp only [nextVar, emitStringLiteral, nextStringConst]
    exact ⟨by omega, by omega⟩
  · split at h
    · simp at h
    · rename_i ir s1 hEmit
      have i1 := emitInt_counters (sizeOf e) e s ir s1 le_rfl hEmit
      dsimp only at h
      split at h <;>
        (injection h with hp
         injection hp with ha hb
         subst hb
         exact ⟨Nat.le_trans i1.1 (Nat.le_succ _), i1.2⟩)

theorem generateStatements_counters (s : GenState) (ast : Program)
    (ls : List String) (s2 : GenState)
    (h : generateStatements s ast = .ok (ls, s2)) :
    s.varCounter ≤ s2.varCounter ∧ s.stringCounter ≤ s2.stringCounter := by
  unfold generateStatements at h
  split at h
  case _ =>
    split at h
    case _ =>
      split at h
      case _ =>
        split at h
        · split at h
          · exact emitPrint_counters _ _ _ _ h
          · injection h with hp
            injection hp with ha hb
            subst hb
            exact ⟨Nat.le_refl _, Nat.le_refl _⟩
        · injection h with hp
          injection hp with ha hb
          subst hb
          exact ⟨Nat.le_refl _, Nat.le_refl _⟩
      case _ =>
        injection h with hp
        injection hp with ha hb
        subst hb
        exact ⟨Nat.le_refl _, Nat.le_refl _⟩
    case _ =>
      injection h with hp
      injection hp with ha hb
      subst hb
      exact ⟨Nat.le_refl _, Nat.le_refl _⟩
  case _ =>
    injection h with hp
    injection hp with ha hb
    subst hb
    exact ⟨Nat.le_refl _, Nat.le_refl _⟩

/-! ### Claims about the generator -/

/-- C1 (amended): `generate` lowers only the first statement of the first
declaration, and only when it is a `print` call.  For a string argument the
output is the `declare` line, the `%s` format global, the single `@.str.0`
constant and then one `define i32 @main()` block holding the three print
instructions and ending with `ret i32 0` — later statements and declarations
are ignored.  For an integer argument the `%d` format global is placed in
front of the `declare` line, and arithmetic instructions are emitted before
the `define` block.  Whenever `generate` returns, its output ends with one
`define`/`entry:` block terminated by `ret i32 0` and the closing brace. -/
theorem C1_generate_structure :
    (∀ (p : Program) (text : String) (s2 : GenState),
       generate genInit p = .ok (text, s2) →
       ∃ pre stmts, s2.output =
         pre ++ [defineLine, entryLine] ++ stmts ++ [retLine, closeLine]) ∧
    (∀ (pkg fname : String) (params : List Parameter) (rt : Option TypeNode)
       (v : String) (fl vl cl sl bl fl2 ploc : Location)
       (restArgs : List Expression) (restStmts : List Statement)
       (restDecls : List Declaration),
       generate genInit
         ⟨pkg, .FunctionDeclaration fname params rt
           (.mk (.ExpressionStatement
             (.CallExpression ⟨"print", fl⟩ (.StringLiteral v vl :: restArgs) cl) sl
             :: restStmts) bl) fl2 :: restDecls, ploc⟩ =
         .ok (String.intercalate "\n" (strPrintOutput v),
              ⟨strPrintOutput v, 3, 1⟩)) ∧
    (∀ (pkg fname : String) (params : List Parameter) (rt : Option TypeNode)
       (n : Int) (fl vl cl sl bl fl2 ploc : Location)
       (restArgs : List Expression) (restStmts : List Statement)
       (restDecls : List Declaration),
       generate genInit
         ⟨pkg, .FunctionDeclaration fname params rt
           (.mk (.ExpressionStatement
             (.CallExpression ⟨"print", fl⟩ (.IntegerLiteral n vl :: restArgs) cl) sl
             :: restStmts) bl) fl2 :: restDecls, ploc⟩ =
         .ok (String.intercalate "\n" (intPrintOutput n),
              ⟨intPrintOutput n, 1, 0⟩)) ∧
    (∀ (pkg fname : String) (params : List Parameter) (rt : Option TypeNode)
       (a b : Int) (fl cl sl bl fl2 ploc la lb li : Location)
       (restArgs : List Expression) (restStmts : List Statement)
       (restDecls : List Declaration),
       generate genInit
         ⟨pkg, .FunctionDeclaration fname params rt
           (.mk (.ExpressionStatement
             (.CallExpression ⟨"print", fl⟩
               (.InfixExpression "+" (.IntegerLiteral a la) (.IntegerLiteral b lb) li
                 :: restArgs) cl) sl
             :: restStmts) bl) fl2 :: restDecls, ploc⟩ =
         .ok (String.intercalate "\n" (addPrintOutput a b),
              ⟨addPrintOutput a b, 2, 0⟩)) := by
  refine ⟨?_, ?_, ?_, ?_⟩
  · intro p text s2 h
    unfold generate at h
    split at h
    · simp at h
    · rename_i stmts s1 hgen
      injection h with hp
      injection hp with ha hb
      subst hb
      exact ⟨s1.output, stmts.map (fun st => "  " ++ st), rfl⟩
  · intro pkg fname params rt v fl vl cl sl bl fl2 ploc restArgs restStmts restDecls
    simp only [generate, generateStatements, BlockStatement.statements]
    rw [if_pos (by simp)]
    rfl
  · intro pkg fname params rt n fl vl cl sl bl fl2 ploc restArgs restStmts restDecls
    simp only [generate, generateStatements, BlockStatement.statements]
    rw [if_pos (by simp)]
    rfl
  · intro pkg fname params rt a b fl cl sl bl fl2 ploc la lb li restArgs restStmts restDecls
    simp only [generate, generateStatements, BlockStatement.statements]
    rw [if_pos (by simp)]
    rfl

/-- Witness for C1: instantiated at `print("hello")`. -/
theorem C1_witness :
    (∃ pre stmts, (strPrintOutput "hello" : List String) =
       pre ++ [defineLine, entryLine] ++ stmts ++ [retLine, closeLine]) ∧
    generate genInit progPrintHello =
      .ok (String.intercalate "\n" (strPrintOutput "hello"),
           ⟨strPrintOutput "hello", 3, 1⟩) := by
  constructor
  · exact C1_generate_structure.1 progPrintHello
      (String.intercalate "\n" (strPrintOutput "hello"))
      ⟨strPrintOutput "hello", 3, 1⟩
      (C1_generate_structure.2.1 "main" "main" [] none "hello"
        l11 l11 l11 l11 l11 l11 l11 [] [] [])
  · exact C1_generate_structure.2.1 "main" "main" [] none "hello"
      l11 l11 l11 l11 l11 l11 l11 [] [] []

/-- C1 counterexample: the claim as stated is false.  For the type-checked
program `main { print("a"); print("b") }`, `generate` lowers only the first
statement — the output holds a single call instruction and no global for
"b".  For the type-checked program `main { print(5) }`, the first output
line is the `%d` format global, not the `printf` declare line, so the
declare line does not come first. -/
theorem C1_counterexample :
    generate genInit progTwoPrints =
      .ok (String.intercalate "\n" (strPrintOutput "a"),
           ⟨strPrintOutput "a", 3, 1⟩) ∧
    ((strPrintOutput "a").contains
      ("@.str." ++ toString 1 ++ " = private unnamed_addr constant [" ++
        toString ((processString "b").2 + 1) ++ " x i8] c\"" ++
        (processString "b").1 ++ "\\00\", align 1\n")) = false ∧
    generate genInit progPrintFive =
      .ok (String.intercalate "\n" (intPrintOutput 5),
           ⟨intPrintOutput 5, 1, 0⟩) ∧
    (intPrintOutput 5).head? = some intFmtLine ∧
    intFmtLine ≠ headerDecl := by
  refine ⟨rfl, by decide, rfl, rfl, by decide⟩

/-- C7 (amended): IR generation is a pure function of the generator state
and the AST — two fresh instances on the same AST produce byte-identical
text — and the temporary-variable and string-constant counters are monotonic
across a `generate` invocation.  The counters are reset by constructing a
fresh generator, not at the start of the next `generate` invocation on the
same instance: a second call continues the numbering and appends to the
previous output. -/
theorem C7_generator_determinism :
    (∀ (s1 s2 : GenState) (ast : Program), s1 = genInit → s2 = genInit →
       generate s1 ast = generate s2 ast) ∧
    (∀ (s : GenState) (ast : Program) (t : String) (s2 : GenState),
       generate s ast = .ok (t, s2) →
       s.varCounter ≤ s2.varCounter ∧ s.stringCounter ≤ s2.stringCounter) := by
  constructor
  · intro s1 s2 ast h1 h2
    rw [h1, h2]
  · intro s ast t s2 h
    unfold generate at h
    split at h
    · simp at h
    · rename_i stmts s1 hgen
      injection h with hp
      injection hp with ha hb
      subst hb
      have := generateStatements_counters s ast stmts s1 hgen
      simpa [emitMainFunction] using this

/-- Witness for C7: instantiated at `print("hello")` from two fresh
generator states. -/
theorem C7_witness :
    generate genInit progPrintHello = generate genInit progPrintHello ∧
    (genInit.varCounter ≤ 3 ∧ genInit.stringCounter ≤ 1) := by
  constructor
  · exact C7_generator_determinism.1 genInit genInit progPrintHello rfl rfl
  · exact C7_generator_determinism.2 genInit progPrintHello
      (String.intercalate "\n" (strPrintOutput "hello"))
      ⟨strPrintOutput "hello", 3, 1⟩ rfl

/-- C7 counterexample: the counters are not reset at the start of the next
`generate` invocation on the same instance.  After generating once from a
fresh instance the variable counter is 3 and the string counter 1; a second
`generate` on the resulting state continues to 6 and 2 and produces
different text, so the result of `generate` depends on the instance state
left by the previous invocation. -/
theorem C7_counterexample :
    generate genInit progPrintHello =
      .ok (String.intercalate "\n" (strPrintOutput "hello"),
           ⟨strPrintOutput "hello", 3, 1⟩) ∧
    (3 : Nat) ≠ 0 ∧
    (generate (⟨strPrintOutput "hello", 3, 1⟩ : GenState) progPrintHello).map
        (fun r => (r.2.varCounter, r.2.stringCounter)) = .ok (6, 2) ∧
    (generate (⟨strPrintOutput "hello", 3, 1⟩ : GenState) progPrintHello).toOption.map
        Prod.fst ≠
      (generate genInit progPrintHello).toOption.map Prod.fst := by
  refine ⟨rfl, by decide, rfl, by decide⟩

/-! ## Parser (src/parser/parser.ts)

The parser pulls tokens from the lexer through a `currentToken`/`peekToken`
window; this is equivalent to an index into the token sequence with a
one-ahead peek, so we model the parser state as a cursor `i` into a fixed
token list, where reading past the end yields the lexer's persistent EOF
token.  `while` loops become recursive loop functions.  The top-level
declaration loop of `parseProgram` does not advance the cursor when the
current token is neither `func`, a semicolon nor EOF, so the functions that
can reach it carry fuel; a result of `.fuel` means the fuel ran out. -/

/-- Location-free expression skeletons, used to state tree-shape facts
about the parser independently of the source positions it records. -/
inductive ExprS where
  | ident (value : String)
  | int (value : Int)
  | str (value : String)
  | bool (value : Bool)
  | pre (operator : String) (right : ExprS)
  | bin (operator : String) (left : ExprS) (right : ExprS)
  | call (function : String) (arguments : List ExprS)
  deriving Repr

/-- Erase the locations of an expression. -/
def Expression.strip : Expression → ExprS
  | .Identifier id => .ident id.value
  | .IntegerLiteral v _ => .int v
  | .StringLiteral v _ => .str v
  | .BooleanLiteral v _ => .bool v
  | .PrefixExpression op r _ => .pre op r.strip
  | .InfixExpression op l r _ => .bin op l.strip r.strip
  | .CallExpression f args _ =>
    .call f.value (args.attach.map fun a => a.1.strip)
decreasing_by
  all_goals simp_wf
  all_goals first
    | omega
    | (have hm := List.sizeOf_lt_of_mem a.2; omega)

namespace Parser

def eofToken : Token := ⟨.EOF, "", 0, 0⟩

def tokenAt (ts : List Token) (i : Nat) : Token := ts.getD i eofToken

def currentLocation (ts : List Token) (i : Nat) : Location :=
  ⟨(tokenAt ts i).line, (tokenAt ts i).column⟩

/-- The message format of `Parser.throwError`. -/
def throwMsg (ts : List Token) (i : Nat) (message : String) : String :=
  "Parser error at line " ++ toString (tokenAt ts i).line ++ ", column " ++
    toString (tokenAt ts i).column ++ ": " ++ message

inductive PResult (α : Type) where
  | ok (a : α) (i : Nat)
  | err (message : String)
  | fuel
  deriving Repr

/-- `expectToken`: check the current token's type and advance. -/
def expectToken (ts : List Token) (i : Nat) (type : TokenType) : PResult Token :=
  if (tokenAt ts i).type = type then .ok (tokenAt ts i) (i + 1)
  else .err (throwMsg ts i
    ("Expected " ++ ttStr type ++ ", got " ++ ttStr (tokenAt ts i).type))

theorem lt_of_tokenAt_ne_eof (ts : List Token) (i : Nat)
    (h : (tokenAt ts i).type ≠ .EOF) : i < ts.length := by
  by_contra hge
  push_neg at hge
  rw [tokenAt, List.getD_eq_default] at h
  · exact h rfl
  · exact hge

/-- `consumeSemicolons`: skip any number of semicolon tokens. -/
def consumeSemicolons (ts : List Token) (i : Nat) : Nat :=
  if (tokenAt ts i).type = .SEMICOLON then consumeSemicolons ts (i + 1) else i
termination_by ts.length - i
decreasing_by
  have hlt : i < ts.length := by
    apply lt_of_tokenAt_ne_eof
    simp_all
  omega

/-- `parseInt(literal, 10)`; the lexer only produces digit-run literals, on
which `toInt?` agrees with JavaScript `parseInt` (`NaN` is not modelled). -/
def parseIntLit (s : String) : Int := (s.toInt?).getD 0

/-- `parseType`: one of the three primitive type keywords. -/
def parseType (ts : List Token) (i : Nat) : PResult TypeNode :=
  match (tokenAt ts i).type with
  | .INT_TYPE => .ok ⟨.int, currentLocation ts i⟩ (i + 1)
  | .STRING_TYPE => .ok ⟨.string, currentLocation ts i⟩ (i + 1)
  | .BOOL_TYPE => .ok ⟨.bool, currentLocation ts i⟩ (i + 1)
  | _ => .err (throwMsg ts i ("Expected type, got " ++ ttStr (tokenAt ts i).type))

/-- `parseParameter`: `name type`. -/
def parseParameter (ts : List Token) (i : Nat) : PResult Parameter :=
  match expectToken ts i .IDENT with
  | .ok nameTok i1 =>
    match parseType ts i1 with
    | .ok t i2 => .ok ⟨nameTok.literal, t, currentLocation ts i⟩ i2
    | .err m => .err m
    | .fuel => .fuel
  | .err m => .err m
  | .fuel => .fuel

/-- The optional return type of a function declaration. -/
def parseReturnType (ts : List Token) (i : Nat) : PResult (Option TypeNode) :=
  if (tokenAt ts i).type = .INT_TYPE ∨ (tokenAt ts i).type = .STRING_TYPE ∨
      (tokenAt ts i).type = .BOOL_TYPE then
    match parseType ts i with
    | .ok t i2 => .ok (some t) i2
    | .err m => .err m
    | .fuel => .fuel
  else .ok none i

mutual

/-- `parseExpression`: a call expression when the current literal is
`print`, otherwise precedence climbing from the additive level. -/
def parseExpression (ts : List Token) (fuel : Nat) (i : Nat) :
    PResult Expression :=
  if (tokenAt ts i).literal = "print" then parseCallExpression ts fuel i
  else parseAdditive ts fuel i
termination_by (fuel, 60)

/-- `parseCallExpression`: `name ( arguments )`. -/
def parseCallExpression (ts : List Token) (fuel : Nat) (i : Nat) :
    PResult Expression :=
  match expectToken ts (i + 1) .LPAREN with
  | .ok _ i2 =>
    match parseCallArguments ts fuel i2 with
    | .ok args i3 =>
      match expectToken ts i3 .RPAREN with
      | .ok _ i4 =>
        .ok (.CallExpression ⟨(tokenAt ts i).literal, currentLocation ts i⟩
          args (currentLocation ts i)) i4
      | .err m => .err m
      | .fuel => .fuel
    | .err m => .err m
    | .fuel => .fuel
  | .err m => .err m
  | .fuel => .fuel
termination_by (fuel, 50)

/-- The argument list of a call: empty when the next token is `)`,
otherwise a first expression followed by comma-separated expressions. -/
def parseCallArguments (ts : List Token) (fuel : Nat) (i : Nat) :
    PResult (List Expression) :=
  if (tokenAt ts i).type ≠ .RPAREN then
    match fuel with
    | 0 => .fuel
    | fuel + 1 =>
      match parseExpression ts fuel i with
      | .ok arg i2 => callArgsLoop ts fuel [arg] i2
      | .err m => .err m
      | .fuel => .fuel
  else .ok [] i
termination_by (fuel, 48)

def callArgsLoop (ts : List Token) (fuel : Nat) (acc : List Expression)
    (i : Nat) : PResult (List Expression) :=
  if (tokenAt ts i).type = .COMMA then
    match fuel with
    | 0 => .fuel
    | fuel + 1 =>
      match parseExpression ts fuel (i + 1) with
      | .ok arg i2 => callArgsLoop ts fuel (acc ++ [arg]) i2
      | .err m => .err m
      | .fuel => .fuel
  else .ok acc i
termination_by (fuel, 45)

/-- `parseAdditive`: left-associative `+`/`-` over multiplicative terms. -/
def parseAdditive (ts : List Token) (fuel : Nat) (i : Nat) :
    PResult Expression :=
  match parseMultiplicative ts fuel i with
  | .ok left i2 => additiveLoop ts fuel left i2
  | .err m => .err m
  | .fuel => .fuel
termination_by (fuel, 40)

def additiveLoop (ts : List Token) (fuel : Nat) (left : Expression) (i : Nat) :
    PResult Expression :=
  if (tokenAt ts i).type = .PLUS ∨ (tokenAt ts i).type = .MINUS then
    if _h : fuel = 0 then .fuel
    else
      match parseMultiplicative ts (fuel - 1) (i + 1) with
      | .ok right i2 =>
        additiveLoop ts (fuel - 1)
          (.InfixExpression (tokenAt ts i).literal left right
            (currentLocation ts i2)) i2
      | .err m => .err m
      | .fuel => .fuel
  else .ok left i
termination_by (fuel, 35)

/-- `parseMultiplicative`: left-associative `*`/`/` over primaries. -/
def parseMultiplicative (ts : List Token) (fuel : Nat) (i : Nat) :
    PResult Expression :=
  match parsePrimary ts fuel i with
  | .ok left i2 => multiplicativeLoop ts fuel left i2
  | .err m => .err m
  | .fuel => .fuel
termination_by (fuel, 30)

def multiplicativeLoop (ts : List Token) (fuel : Nat) (left : Expression)
    (i : Nat) : PResult Expression :=
  if (tokenAt ts i).type = .ASTERISK ∨ (tokenAt ts i).type = .SLASH then
    if _h : fuel = 0 then .fuel
    else
      match parsePrimary ts (fuel - 1) (i + 1) with
      | .ok right i2 =>
        multiplicativeLoop ts (fuel - 1)
          (.InfixExpression (tokenAt ts i).literal left right
            (currentLocation ts i2)) i2
      | .err m => .err m
      | .fuel => .fuel
  else .ok left i
termination_by (fuel, 25)

/-- `parsePrimary`: parenthesized expression, literal, identifier or
`print` call. -/
def parsePrimary (ts : List Token) (fuel : Nat) (i : Nat) :
    PResult Expression :=
  match (tokenAt ts i).type with
  | .LPAREN =>
    if _h : fuel = 0 then .fuel
    else
      match parseExpression ts (fuel - 1) (i + 1) with
      | .ok expr i2 =>
        match expectToken ts i2 .RPAREN with
        | .ok _ i3 => .ok expr i3
        | .err m => .err m
        | .fuel => .fuel
      | .err m => .err m
      | .fuel => .fuel
  | .INT =>
    .ok (.IntegerLiteral (parseIntLit (tokenAt ts i).literal)
      (currentLocation ts i)) (i + 1)
  | .STRING =>
    .ok (.StringLiteral (tokenAt ts i).literal (currentLocation ts i)) (i + 1)
  | .TRUE => .ok (.BooleanLiteral true (currentLocation ts i)) (i + 1)
  | .FALSE => .ok (.BooleanLiteral false (currentLocation ts i)) (i + 1)
  | .IDENT =>
    if (tokenAt ts i).literal = "print" then
      if _h : fuel = 0 then .fuel
      else parseCallExpression ts (fuel - 1) i
    else
      .ok (.Identifier ⟨(tokenAt ts i).literal, currentLocation ts i⟩) (i + 1)
  | _ => .err (throwMsg ts i ("Unexpected token " ++ ttStr (tokenAt ts i).type))
termination_by (fuel, 20)

end

mutual

/-- `parseExpressionStatement` (the node's location is taken after the
expression has been parsed, as in the source). -/
def parseExpressionStatement (ts : List Token) (fuel : Nat) (i : Nat) :
    PResult Statement :=
  match parseExpression ts fuel i with
  | .ok expression i2 =>
    .ok (.ExpressionStatement expression (currentLocation ts i2)) i2
  | .err m => .err m
  | .fuel => .fuel

/-- `parseReturnStatement`. -/
def parseReturnStatement (ts : List Token) (fuel : Nat) (i : Nat) :
    PResult Statement :=
  match parseExpression ts fuel (i + 1) with
  | .ok returnValue i2 =>
    if (tokenAt ts i2).type = .SEMICOLON then
      .ok (.ReturnStatement returnValue (currentLocation ts i)) (i2 + 1)
    else .ok (.ReturnStatement returnValue (currentLocation ts i)) i2
  | .err m => .err m
  | .fuel => .fuel

/-- `parseStatement`: expression statements and return statements only. -/
def parseStatement (ts : List Token) (fuel : Nat) (i : Nat) :
    PResult Statement :=
  match (tokenAt ts i).type with
  | .IDENT => parseExpressionStatement ts fuel i
  | .RETURN => parseReturnStatement ts fuel i
  | _ => .err (throwMsg ts i ("Unexpected token " ++ ttStr (tokenAt ts i).type))

def blockLoop (ts : List Token) (fuel : Nat) (acc : List Statement) (i : Nat) :
    PResult (List Statement) :=
  if (tokenAt ts i).type ≠ .RBRACE ∧ (tokenAt ts i).type ≠ .EOF then
    match fuel with
    | 0 => .fuel
    | fuel + 1 =>
      match parseStatement ts fuel i with
      | .ok stmt i2 => blockLoop ts fuel (acc ++ [stmt]) (consumeSemicolons ts i2)
      | .err m => .err m
      | .fuel => .fuel
  else .ok acc i
termination_by (fuel, 84)

/-- `parseBlockStatement`: statements until `}` or EOF, then expect `}`. -/
def parseBlockStatement (ts : List Token) (fuel : Nat) (i : Nat) :
    PResult BlockStatement :=
  match blockLoop ts fuel [] i with
  | .ok stmts i2 =>
    match expectToken ts i2 .RBRACE with
    | .ok _ i3 => .ok (.mk stmts (currentLocation ts i)) i3
    | .err m => .err m
    | .fuel => .fuel
  | .err m => .err m
  | .fuel => .fuel

def paramsLoop (ts : List Token) (fuel : Nat) (acc : List Parameter) (i : Nat) :
    PResult (List Parameter) :=
  if (tokenAt ts i).type = .COMMA then
    match fuel with
    | 0 => .fuel
    | fuel + 1 =>
      match parseParameter ts (i + 1) with
      | .ok p i2 => paramsLoop ts fuel (acc ++ [p]) i2
      | .err m => .err m
      | .fuel => .fuel
  else .ok acc i
termination_by (fuel, 70)

/-- `parseFunctionParameters`. -/
def parseFunctionParameters (ts : List Token) (fuel : Nat) (i : Nat) :
    PResult (List Parameter) :=
  if (tokenAt ts i).type = .RPAREN then .ok [] i
  else
    match parseParameter ts i with
    | .ok p i2 => paramsLoop ts fuel [p] i2
    | .err m => .err m
    | .fuel => .fuel

/-- `parseFunctionDeclaration`: `func name ( params ) type? { body }`. -/
def parseFunctionDeclaration (ts : List Token) (fuel : Nat) (i : Nat) :
    PResult Declaration :=
  match expectToken ts (i + 1) .IDENT with
  | .ok nameTok i2 =>
    match expectToken ts i2 .LPAREN with
    | .ok _ i3 =>
      match parseFunctionParameters ts fuel i3 with
      | .ok params i4 =>
        match expectToken ts i4 .RPAREN with
        | .ok _ i5 =>
          match parseReturnType ts i5 with
          | .ok rt i6 =>
            match expectToken ts i6 .LBRACE with
            | .ok _ i7 =>
              match parseBlockStatement ts fuel i7 with
              | .ok body i8 =>
                .ok (.FunctionDeclaration nameTok.literal params rt body
                  (currentLocation ts i)) i8
              | .err m => .err m
              | .fuel => .fuel
            | .err m => .err m
            | .fuel => .fuel
          | .err m => .err m
          | .fuel => .fuel
        | .err m => .err m
        | .fuel => .fuel
      | .err m => .err m
      | .fuel => .fuel
    | .err m => .err m
    | .fuel => .fuel
  | .err m => .err m
  | .fuel => .fuel

/-- The top-level declaration loop of `parseProgram`: when the current token
is neither EOF nor `func`, the body only calls `consumeSemicolons`, which
does not advance past a non-semicolon token. -/
def declLoop (ts : List Token) (fuel : Nat) (acc : List Declaration) (i : Nat) :
    PResult (List Declaration) :=
  if (tokenAt ts i).type = .EOF then .ok acc i
  else
    match fuel with
    | 0 => .fuel
    | fuel + 1 =>
      if (tokenAt ts i).type = .FUNC then
        match parseFunctionDeclaration ts fuel i with
        | .ok d i2 => declLoop ts fuel (acc ++ [d]) (consumeSemicolons ts i2)
        | .err m => .err m
        | .fuel => .fuel
      else declLoop ts fuel acc (consumeSemicolons ts i)
termination_by (fuel, 95)

end

/-- `parseProgram`: package clause, then declarations until EOF. -/
def parseProgram (ts : List Token) (fuel : Nat) : PResult Program :=
  match expectToken ts 0 .PACKAGE with
  | .ok _ i1 =>
    match expectToken ts i1 .IDENT with
    | .ok nameTok i2 =>
      match declLoop ts fuel [] (consumeSemicolons ts i2) with
      | .ok decls i4 =>
        .ok ⟨nameTok.literal, decls,
          currentLocation ts (consumeSemicolons ts i2)⟩ i4
      | .err m => .err m
      | .fuel => .fuel
    | .err m => .err m
    | .fuel => .fuel
  | .err m => .err m
  | .fuel => .fuel

/-! ### Definitions for the parser claims -/

/-- Erase the locations of a parse result. -/
def stripResult : PResult Expression → PResult ExprS
  | .ok e i => .ok e.strip i
  | .err m => .err m
  | .fuel => .fuel

def intTok (lit : String) : Token := ⟨.INT, lit, 1, 1⟩

def addOpTok (b : Bool) : Token :=
  if b then ⟨.PLUS, "+", 1, 1⟩ else ⟨.MINUS, "-", 1, 1⟩

def mulOpTok (b : Bool) : Token :=
  if b then ⟨.ASTERISK, "*", 1, 1⟩ else ⟨.SLASH, "/", 1, 1⟩

/-- The token tail of an additive operand chain: `(op, lit)` pairs, each an
operator token (`+` when the flag is true, `-` otherwise) followed by an
integer token. -/
def addOpsTokens (ops : List (Bool × String)) : List Token :=
  ops.flatMap (fun p => [addOpTok p.1, intTok p.2])

def addChainTokens (first : String) (ops : List (Bool × String)) : List Token :=
  intTok first :: addOpsTokens ops

/-- The left-deepening tree the additive chain should parse to. -/
def addFold (first : String) (ops : List (Bool × String)) : ExprS :=
  ops.foldl
    (fun acc p => .bin (if p.1 then "+" else "-") acc (.int (parseIntLit p.2)))
    (.int (parseIntLit first))

def mulOpsTokens (ops : List (Bool × String)) : List Token :=
  ops.flatMap (fun p => [mulOpTok p.1, intTok p.2])

def mulChainTokens (first : String) (ops : List (Bool × String)) : List Token :=
  intTok first :: mulOpsTokens ops

def mulFold (first : String) (ops : List (Bool × String)) : ExprS :=
  ops.foldl
    (fun acc p => .bin (if p.1 then "*" else "/") acc (.int (parseIntLit p.2)))
    (.int (parseIntLit first))

/-- Token sequence of `package main` followed by a stray top-level
identifier `foo` (neither `func` nor a semicolon nor EOF). -/
def c3Tokens : List Token :=
  [⟨.PACKAGE, "package", 1, 1⟩, ⟨.IDENT, "main", 1, 9⟩, ⟨.IDENT, "foo", 2, 1⟩]

/-! ### Lemmas about the parser -/

theorem tokenAt_append (pre suf : List Token) (k : Nat) :
    tokenAt (pre ++ suf) (pre.length + k) = tokenAt suf k := by
  rw [tokenAt, tokenAt, List.getD_append_right]
  · simp
  · omega

theorem tokenAt_len (pre suf : List Token) :
    tokenAt (pre ++ suf) pre.length = tokenAt suf 0 := by
  simpa using tokenAt_append pre suf 0

theorem parsePrimary_int (ts : List Token) (fuel i : Nat)
    (h : (tokenAt ts i).type = .INT) :
    parsePrimary ts fuel i =
      .ok (.IntegerLiteral (parseIntLit (tokenAt ts i).literal)
        (currentLocation ts i)) (i + 1) := by
  unfold parsePrimary
  rw [h]

theorem parseMultiplicative_int (ts : List Token) (fuel i : Nat)
    (h : (tokenAt ts i).type = .INT)
    (h2 : (tokenAt ts (i + 1)).type ≠ .ASTERISK)
    (h3 : (tokenAt ts (i + 1)).type ≠ .SLASH) :
    parseMultiplicative ts fuel i =
      .ok (.IntegerLiteral (parseIntLit (tokenAt ts i).literal)
        (currentLocation ts i)) (i + 1) := by
  unfold parseMultiplicative
  rw [parsePrimary_int ts fuel i h]
  unfold multiplicativeLoop
  rw [if_neg]
  simp [h2, h3]

/-- The token after an integer operand in an additive chain is an additive
operator or the end of input — never a multiplicative operator. -/
theorem addOps_next (pre : List Token) (rest : List (Bool × String)) :
    (tokenAt (pre ++ addOpsTokens rest) pre.length).type ≠ .ASTERISK ∧
    (tokenAt (pre ++ addOpsTokens rest) pre.length).type ≠ .SLASH := by
  rw [tokenAt_len]
  cases rest with
  | nil => simp [addOpsTokens, tokenAt, eofToken]
  | cons q r2 =>
    cases hq : q.1 <;>
      simp [addOpsTokens, tokenAt, addOpTok, hq]

/-- The additive `while` loop folds the remaining chain into a
left-deepening tree. -/
theorem additiveLoop_chain : ∀ (ops : List (Bool × String)) (pre : List Token)
    (fuel : Nat) (acc : Expression), ops.length ≤ fuel →
    stripResult (additiveLoop (pre ++ addOpsTokens ops) fuel acc pre.length) =
      .ok (ops.foldl
        (fun a p => .bin (if p.1 then "+" else "-") a (.int (parseIntLit p.2)))
        acc.strip)
        (pre.length + 2 * ops.length) := by
  intro ops
  induction ops with
  | nil =>
    intro pre fuel acc h
    unfold additiveLoop
    rw [if_neg]
    · simp [stripResult]
    · rw [tokenAt_len]
      simp [addOpsTokens, tokenAt, eofToken]
  | cons p rest ih =>
    obtain ⟨b, lit⟩ := p
    intro pre fuel acc h
    have hops : pre ++ addOpsTokens ((b, lit) :: rest) =
        (pre ++ [addOpTok b, intTok lit]) ++ addOpsTokens rest := by
      simp [addOpsTokens]
    cases fuel with
    | zero => simp at h
    | succ f =>
      have hbound : rest.length ≤ f := by
        simp at h
        omega
      have h0 : tokenAt (pre ++ addOpsTokens ((b, lit) :: rest)) pre.length =
          addOpTok b := by
        rw [tokenAt_len]
        simp [addOpsTokens, tokenAt]
      have h1 : tokenAt (pre ++ addOpsTokens ((b, lit) :: rest))
          (pre.length + 1) = intTok lit := by
        rw [tokenAt_append]
        simp [addOpsTokens, tokenAt]
      have h2 := addOps_next (pre ++ [addOpTok b, intTok lit]) rest
      rw [← hops] at h2
      have hlen2 : (pre ++ [addOpTok b, intTok lit]).length = pre.length + 2 := by
        simp
      rw [hlen2] at h2
      unfold additiveLoop
      rw [h0]
      rw [if_pos (by cases b <;> simp [addOpTok])]
      rw [dif_neg (by omega)]
      simp only [Nat.add_sub_cancel]
      rw [parseMultiplicative_int _ f _ (by rw [h1]; rfl) h2.1 h2.2]
      rw [h1]
      have ihx := ih (pre ++ [addOpTok b, intTok lit]) f
        (.InfixExpression (addOpTok b).literal acc
          (.IntegerLiteral (parseIntLit (intTok lit).literal)
            (currentLocation (pre ++ addOpsTokens ((b, lit) :: rest))
              (pre.length + 1)))
          (currentLocation (pre ++ addOpsTokens ((b, lit) :: rest))
            (pre.length + 2))) hbound
      rw [hlen2] at ihx
      rw [← hops] at ihx
      rw [ihx]
      have harith : pre.length + 2 + 2 * rest.length =
          pre.length + 2 * ((b, lit) :: rest).length := by
        simp
        ring
      rw [harith]
      cases b <;>
        simp [Expression.strip, addOpTok, intTok, List.foldl]

/-- `parseAdditive` on a pure additive chain of integer literals. -/
theorem parseAdditive_chain (first : String) (ops : List (Bool × String))
    (fuel : Nat) (h : ops.length ≤ fuel) :
    stripResult (parseAdditive (addChainTokens first ops) fuel 0) =
      .ok (addFold first ops) (1 + 2 * ops.length) := by
  have h0 : (tokenAt (addChainTokens first ops) 0).type = .INT := by
    simp [addChainTokens, tokenAt, intTok]
  have h1 := addOps_next [intTok first] ops
  have hpre : [intTok first] ++ addOpsTokens ops = addChainTokens first ops := by
    simp [addChainTokens]
  rw [hpre] at h1
  simp only [List.length_singleton] at h1
  unfold parseAdditive
  rw [parseMultiplicative_int _ fuel _ h0 h1.1 h1.2]
  have hloop := additiveLoop_chain ops [intTok first] fuel
    (.IntegerLiteral (parseIntLit (tokenAt (addChainTokens first ops) 0).literal)
      (currentLocation (addChainTokens first ops) 0)) h
  rw [hpre] at hloop
  simp only [List.length_singleton] at hloop
  rw [hloop]
  simp [addFold, addChainTokens, tokenAt, intTok, Expression.strip]

/-- The multiplicative `while` loop folds the remaining chain into a
left-deepening tree. -/
theorem multiplicativeLoop_chain : ∀ (ops : List (Bool × String))
    (pre : List Token) (fuel : Nat) (acc : Expression), ops.length ≤ fuel →
    stripResult
        (multiplicativeLoop (pre ++ mulOpsTokens ops) fuel acc pre.length) =
      .ok (ops.foldl
        (fun a p => .bin (if p.1 then "*" else "/") a (.int (parseIntLit p.2)))
        acc.strip)
        (pre.length + 2 * ops.length) := by
  intro ops
  induction ops with
  | nil =>
    intro pre fuel acc h
    unfold multiplicativeLoop
    rw [if_neg]
    · simp [stripResult]
    · rw [tokenAt_len]
      simp [mulOpsTokens, tokenAt, eofToken]
  | cons p rest ih =>
    obtain ⟨b, lit⟩ := p
    intro pre fuel acc h
    have hops : pre ++ mulOpsTokens ((b, lit) :: rest) =
        (pre ++ [mulOpTok b, intTok lit]) ++ mulOpsTokens rest := by
      simp [mulOpsTokens]
    cases fuel with
    | zero => simp at h
    | succ f =>
      have hbound : rest.length ≤ f := by
        simp at h
        omega
      have h0 : tokenAt (pre ++ mulOpsTokens ((b, lit) :: rest)) pre.length =
          mulOpTok b := by
        rw [tokenAt_len]
        simp [mulOpsTokens, tokenAt]
      have h1 : tokenAt (pre ++ mulOpsTokens ((b, lit) :: rest))
          (pre.length + 1) = intTok lit := by
        rw [tokenAt_append]
        simp [mulOpsTokens, tokenAt]
      have hlen2 : (pre ++ [mulOpTok b, intTok lit]).length = pre.length + 2 := by
        simp
      unfold multiplicativeLoop
      rw [h0]
      rw [if_pos (by cases b <;> simp [mulOpTok])]
      rw [dif_neg (by omega)]
      simp only [Nat.add_sub_cancel]
      rw [parsePrimary_int _ f _ (by rw [h1]; rfl)]
      rw [h1]
      have ihx := ih (pre ++ [mulOpTok b, intTok lit]) f
        (.InfixExpression (mulOpTok b).literal acc
          (.IntegerLiteral (parseIntLit (intTok lit).literal)
            (currentLocation (pre ++ mulOpsTokens ((b, lit) :: rest))
              (pre.length + 1)))
          (currentLocation (pre ++ mulOpsTokens ((b, lit) :: rest))
            (pre.length + 2))) hbound
      rw [hlen2] at ihx
      rw [← hops] at ihx
      rw [ihx]
      have harith : pre.length + 2 + 2 * rest.length =
          pre.length + 2 * ((b, lit) :: rest).length := by
        simp
        ring
      rw [harith]
      cases b <;>
        simp [Expression.strip, mulOpTok, intTok, List.foldl]

/-- `parseMultiplicative` on a pure multiplicative chain of integer
literals. -/
theorem parseMultiplicative_chain (first : String) (ops : List (Bool × String))
    (fuel : Nat) (h : ops.length ≤ fuel) :
    stripResult (parseMultiplicative (mulChainTokens first ops) fuel 0) =
      .ok (mulFold first ops) (1 + 2 * ops.length) := by
  have h0 : (tokenAt (mulChainTokens first ops) 0).type = .INT := by
    simp [mulChainTokens, tokenAt, intTok]
  have hpre : [intTok first] ++ mulOpsTokens ops = mulChainTokens first ops := by
    simp [mulChainTokens]
  unfold parseMultiplicative
  rw [parsePrimary_int _ fuel _ h0]
  have hloop := multiplicativeLoop_chain ops [intTok first] fuel
    (.IntegerLiteral (parseIntLit (tokenAt (mulChainTokens first ops) 0).literal)
      (currentLocation (mulChainTokens first ops) 0)) h
  rw [hpre] at hloop
  simp only [List.length_singleton] at hloop
  rw [hloop]
  simp [mulFold, mulChainTokens, tokenAt, intTok, Expression.strip]

/-- `a - b * c` parses as `a - (b * c)`: the multiplicative level binds
tighter than the additive level. -/
theorem parseAdditive_prec (la lb lc : String) (fuel : Nat) (h : 2 ≤ fuel) :
    stripResult (parseAdditive
        [intTok la, addOpTok false, intTok lb, mulOpTok true, intTok lc]
        fuel 0) =
      .ok (.bin "-" (.int (parseIntLit la))
        (.bin "*" (.int (parseIntLit lb)) (.int (parseIntLit lc)))) 5 := by
  obtain ⟨f, rfl⟩ : ∃ f, fuel = f + 2 := ⟨fuel - 2, by omega⟩
  simp [parseAdditive, parseMultiplicative, parsePrimary, additiveLoop,
    multiplicativeLoop, stripResult, Expression.strip, tokenAt, intTok,
    addOpTok, mulOpTok, eofToken, currentLocation]

/-- `consumeSemicolons` does not move past the stray identifier. -/
theorem consumeSemicolons_c3 : consumeSemicolons c3Tokens 2 = 2 := by
  unfold consumeSemicolons
  simp [c3Tokens, tokenAt]

/-- The declaration loop spins forever on a stray top-level identifier:
no amount of fuel makes it return. -/
theorem declLoop_c3 (fuel : Nat) : ∀ (acc : List Declaration),
    declLoop c3Tokens fuel acc 2 = .fuel := by
  induction fuel with
  | zero =>
    intro acc
    unfold declLoop
    rw [if_neg (by decide)]
  | succ f ih =>
    intro acc
    unfold declLoop
    rw [if_neg (by decide)]
    simp only [consumeSemicolons_c3, ih]
    rw [if_neg (by decide)]

theorem parseProgram_c3 (fuel : Nat) : parseProgram c3Tokens fuel = .fuel := by
  unfold parseProgram
  simp only [
    show expectToken c3Tokens 0 .PACKAGE = .ok ⟨.PACKAGE, "package", 1, 1⟩ 1
      from rfl,
    show expectToken c3Tokens 1 .IDENT = .ok ⟨.IDENT, "main", 1, 9⟩ 2 from rfl,
    consumeSemicolons_c3, declLoop_c3]

end Parser

/-- C3: the spec claims `parseProgram()` terminates on every finite token
sequence, returning a complete Program or throwing a located parser error.
This is false: on a token stream whose top-level declaration region holds a
token other than `func`, a semicolon, or EOF — here `package main` followed
by a stray identifier — the declaration loop neither advances, returns, nor
throws, so no fuel bound ever suffices: the parser loops forever. -/
theorem C3_parse_nontermination (fuel : Nat) :
    Parser.parseProgram Parser.c3Tokens fuel = .fuel :=
  Parser.parseProgram_c3 fuel

/-- C6: `+`/`-` bind looser than `*`/`/` and both levels are
left-associative. (1) An additive chain of integer literals parses to the
left-deepening fold `addFold` (in particular `a - b - c` is `(a - b) - c`);
(2) a multiplicative chain parses to the left-deepening fold `mulFold`;
(3) `a - b * c` parses as `a - (b * c)`. -/
theorem C6_precedence_associativity :
    (∀ (first : String) (ops : List (Bool × String)) (fuel : Nat),
      ops.length ≤ fuel →
      Parser.stripResult
          (Parser.parseAdditive (Parser.addChainTokens first ops) fuel 0) =
        .ok (Parser.addFold first ops) (1 + 2 * ops.length)) ∧
    (∀ (first : String) (ops : List (Bool × String)) (fuel : Nat),
      ops.length ≤ fuel →
      Parser.stripResult
          (Parser.parseMultiplicative (Parser.mulChainTokens first ops) fuel 0) =
        .ok (Parser.mulFold first ops) (1 + 2 * ops.length)) ∧
    (∀ (la lb lc : String) (fuel : Nat), 2 ≤ fuel →
      Parser.stripResult (Parser.parseAdditive
          [Parser.intTok la, Parser.addOpTok false, Parser.intTok lb,
            Parser.mulOpTok true, Parser.intTok lc] fuel 0) =
        .ok (.bin "-" (.int (Parser.parseIntLit la))
          (.bin "*" (.int (Parser.parseIntLit lb))
            (.int (Parser.parseIntLit lc)))) 5) :=
  ⟨Parser.parseAdditive_chain, Parser.parseMultiplicative_chain,
    Parser.parseAdditive_prec⟩

/-- `1 - 2 - 3` parses as `(1 - 2) - 3`, `4 * 5` folds left, and
`1 - 2 * 3` parses as `1 - (2 * 3)`. -/
theorem C6_witness :
    Parser.stripResult (Parser.parseAdditive
        (Parser.addChainTokens "1" [(false, "2"), (false, "3")]) 2 0) =
      .ok (.bin "-" (.bin "-" (.int 1) (.int 2)) (.int 3)) 5 ∧
    Parser.stripResult (Parser.parseMultiplicative
        (Parser.mulChainTokens "4" [(true, "5")]) 1 0) =
      .ok (.bin "*" (.int 4) (.int 5)) 3 ∧
    Parser.stripResult (Parser.parseAdditive
        [Parser.intTok "1", Parser.addOpTok false, Parser.intTok "2",
          Parser.mulOpTok true, Parser.intTok "3"] 2 0) =
      .ok (.bin "-" (.int 1) (.bin "*" (.int 2) (.int 3))) 5 := by
  obtain ⟨h1, h2, h3⟩ := C6_precedence_associativity
  have e1 : ("1".toInt?.getD 0 : Int) = 1 := by
    simp [String.toInt?, String.toNat?, String.isNat, String.all_eq,
      String.foldl_eq, String.get, String.utf8GetAux, String.isEmpty,
      String.endPos, String.utf8ByteSize, String.utf8ByteSize.go,
      Char.utf8Size, String.Pos.ext_iff]
  have e2 : ("2".toInt?.getD 0 : Int) = 2 := by
    simp [String.toInt?, String.toNat?, String.isNat, String.all_eq,
      String.foldl_eq, String.get, String.utf8GetAux, String.isEmpty,
      String.endPos, String.utf8ByteSize, String.utf8ByteSize.go,
      Char.utf8Size, String.Pos.ext_iff]
  have e3 : ("3".toInt?.getD 0 : Int) = 3 := by
    simp [String.toInt?, String.toNat?, String.isNat, String.all_eq,
      String.foldl_eq, String.get, String.utf8GetAux, String.isEmpty,
      String.endPos, String.utf8ByteSize, String.utf8ByteSize.go,
      Char.utf8Size, String.Pos.ext_iff]
  have e4 : ("4".toInt?.getD 0 : Int) = 4 := by
    simp [String.toInt?, String.toNat?, String.isNat, String.all_eq,
      String.foldl_eq, String.get, String.utf8GetAux, String.isEmpty,
      String.endPos, String.utf8ByteSize, String.utf8ByteSize.go,
      Char.utf8Size, String.Pos.ext_iff]
  have e5 : ("5".toInt?.getD 0 : Int) = 5 := by
    simp [String.toInt?, String.toNat?, String.isNat, String.all_eq,
      String.foldl_eq, String.get, String.utf8GetAux, String.isEmpty,
      String.endPos, String.utf8ByteSize, String.utf8ByteSize.go,
      Char.utf8Size, String.Pos.ext_iff]
  refine ⟨?_, ?_, ?_⟩
  · have h := h1 "1" [(false, "2"), (false, "3")] 2 (by decide)
    simpa [Parser.addFold, Parser.parseIntLit, e1, e2, e3] using h
  · have h := h2 "4" [(true, "5")] 1 (by decide)
    simpa [Parser.mulFold, Parser.parseIntLit, e4, e5] using h
  · have h := h3 "1" "2" "3" 2 (by decide)
    simpa [Parser.parseIntLit, e1, e2, e3] using h

/-! ## Lexer (src/lexer/lexer.ts, the semicolon-inserting variant) -/

namespace Lexer

/-- The mutable state of the `Lexer` class: the input (as a character
list), `position`, `readPosition`, the current character `ch` (TS uses the
empty string for end of input; here `none`), `line`, `column`, and the
last emitted token. -/
structure LexState where
  input : List Char
  position : Nat
  readPosition : Nat
  ch : Option Char
  line : Nat
  column : Nat
  lastToken : Option Token
  deriving DecidableEq, Repr

/-- `readChar`: advance to the next character, updating line/column. -/
def readChar (st : LexState) : LexState :=
  let c := st.input.get? st.readPosition
  let st1 : LexState :=
    { st with ch := c, position := st.readPosition,
              readPosition := st.readPosition + 1 }
  if c = some '\n' then { st1 with line := st1.line + 1, column := 1 }
  else { st1 with column := st1.column + 1 }

/-- The constructor `new Lexer(input)`. -/
def initLexer (input : String) : LexState :=
  readChar ⟨input.toList, 0, 0, none, 1, 1, none⟩

/-- `isWhitespace` on the current character. -/
def isWhitespaceO : Option Char → Bool
  | some c => c = ' ' ∨ c = '\t' ∨ c = '\n' ∨ c = '\r'
  | none => false

/-- `needsSemicolon`: the last token can legally end a statement. -/
def needsSemicolonB (st : LexState) : Bool :=
  match st.lastToken with
  | none => false
  | some t =>
    t.type = TokenType.IDENT ∨ t.type = TokenType.STRING ∨
    t.type = TokenType.INT ∨ t.type = TokenType.RPAREN ∨
    t.type = TokenType.RBRACE

/-- `createToken`: position info is taken from the current state, with the
column backed up over the literal. -/
def createToken (st : LexState) (type : TokenType) (literal : String) :
    Token :=
  ⟨type, literal, st.line, st.column - literal.length⟩

/-- A lexer outcome: a value, a thrown `Error`, or fuel exhaustion (the
modelled loops are fueled; the TS loops bound themselves by the input
length). -/
inductive LexRes (α : Type) where
  | ok (a : α)
  | err (m : String)
  | fuel
  deriving DecidableEq, Repr

/-- `skipWhitespace`: skip whitespace; on a newline with a pending
statement-ending token, emit a synthesized SEMICOLON token. -/
def skipWS : Nat → LexState → LexRes (Option Token × LexState)
  | 0, _ => .fuel
  | fuel + 1, st =>
    if isWhitespaceO st.ch then
      if st.ch = some '\n' ∧ needsSemicolonB st then
        .ok (some (createToken st .SEMICOLON ";"), readChar st)
      else skipWS fuel (readChar st)
    else .ok (none, st)

/-- `input.slice(a, b)` on the stored character list. -/
def sliceStr (l : List Char) (a b : Nat) : String :=
  ((l.drop a).take (b - a)).asString

/-- `isLetter`: `/[a-zA-Z_]/`. -/
def isLetterB (c : Char) : Bool := c.isAlpha ∨ c = '_'

/-- The `while` loops of `readIdentifier`/`readNumber`: advance while the
current character satisfies the predicate. -/
def readCharsWhile (p : Char → Bool) : Nat → LexState → LexRes LexState
  | 0, _ => .fuel
  | fuel + 1, st =>
    match st.ch with
    | some c => if p c then readCharsWhile p fuel (readChar st) else .ok st
    | none => .ok st

/-- `readIdentifier`. -/
def readIdentifier (st : LexState) (fuel : Nat) : LexRes (String × LexState) :=
  match readCharsWhile isLetterB fuel st with
  | .ok st2 => .ok (sliceStr st.input st.position st2.position, st2)
  | .err m => .err m
  | .fuel => .fuel

/-- `readNumber`. -/
def readNumber (st : LexState) (fuel : Nat) : LexRes (String × LexState) :=
  match readCharsWhile Char.isDigit fuel st with
  | .ok st2 => .ok (sliceStr st.input st.position st2.position, st2)
  | .err m => .err m
  | .fuel => .fuel

/-- The `while` loop of `readString`: scan to the closing quote or end of
input, skipping the character after every backslash. -/
def readStringLoop : Nat → LexState → LexRes LexState
  | 0, _ => .fuel
  | fuel + 1, st =>
    match st.ch with
    | some c =>
      if c = '"' then .ok st
      else if c = '\\' then readStringLoop fuel (readChar (readChar st))
      else readStringLoop fuel (readChar st)
    | none => .ok st

/-- `readString`: the raw (undecoded) slice between the quotes; throws on
an unterminated literal. -/
def readString (st : LexState) (fuel : Nat) : LexRes (String × LexState) :=
  match readStringLoop fuel (readChar st) with
  | .ok st2 =>
    if st2.ch ≠ some '"' then
      .err ("Unterminated string literal at line " ++ toString st2.line ++
        ", column " ++ toString st2.column)
    else .ok (sliceStr st.input (st.position + 1) st2.position, readChar st2)
  | .err m => .err m
  | .fuel => .fuel

/-- Install a freshly created token as `lastToken` and return it. -/
def emit (t : Token) (st : LexState) : LexRes (Token × LexState) :=
  .ok (t, { st with lastToken := some t })

/-- `nextToken`. -/
def nextToken (st : LexState) (fuel : Nat) : LexRes (Token × LexState) :=
  match skipWS fuel st with
  | .err m => .err m
  | .fuel => .fuel
  | .ok (some tok, st1) => emit tok st1
  | .ok (none, st1) =>
    match st1.ch with
    | none =>
      if needsSemicolonB st1 then emit (createToken st1 .SEMICOLON ";") st1
      else emit (createToken st1 .EOF "") st1
    | some c =>
      if c = '"' then
        match readString st1 fuel with
        | .ok (s, st2) => emit (createToken st2 .STRING s) st2
        | .err m => .err m
        | .fuel => .fuel
      else if c = '(' then emit (createToken st1 .LPAREN "(") (readChar st1)
      else if c = ')' then emit (createToken st1 .RPAREN ")") (readChar st1)
      else if c = '\x7b' then emit (createToken st1 .LBRACE "\x7b") (readChar st1)
      else if c = '\x7d' then emit (createToken st1 .RBRACE "\x7d") (readChar st1)
      else if c = '+' then emit (createToken st1 .PLUS "+") (readChar st1)
      else if c.isDigit then
        match readNumber st1 fuel with
        | .ok (lit, st2) => emit (createToken st2 .INT lit) st2
        | .err m => .err m
        | .fuel => .fuel
      else if isLetterB c then
        match readIdentifier st1 fuel with
        | .ok (lit, st2) => emit (createToken st2 (lookupIdent lit) lit) st2
        | .err m => .err m
        | .fuel => .fuel
      else emit (createToken st1 .ILLEGAL (String.singleton c)) (readChar st1)

/-- `scan`: collect tokens until (and including) EOF. -/
def scan : Nat → LexState → LexRes (List Token)
  | 0, _ => .fuel
  | fuel + 1, st =>
    match nextToken st (fuel + 1) with
    | .ok (t, st2) =>
      if t.type = TokenType.EOF then .ok [t]
      else
        match scan fuel st2 with
        | .ok ts => .ok (t :: ts)
        | .err m => .err m
        | .fuel => .fuel
    | .err m => .err m
    | .fuel => .fuel

/-- Tokenize a whole source text. -/
def tokenize (input : String) (fuel : Nat) : LexRes (List Token) :=
  scan fuel (initLexer input)

/-- Project a scan result to token kinds and literals (the TS lexer's
column arithmetic can go negative, which a `Nat` column truncates, so
sequence facts are stated position-free). -/
def tokenKinds : LexRes (List Token) → LexRes (List (TokenType × String))
  | .ok ts => .ok (ts.map fun t => (t.type, t.literal))
  | .err m => .err m
  | .fuel => .fuel

end Lexer

theorem lookupIdent_not_synth (s : String) :
    lookupIdent s ≠ .SEMICOLON ∧ lookupIdent s ≠ .EOF := by
  unfold lookupIdent KEYWORDS
  simp only [List.lookup]
  repeat' split
  all_goals simp

namespace Lexer

theorem readChar_last (st : LexState) :
    (readChar st).lastToken = st.lastToken := by
  unfold readChar
  dsimp only
  split <;> rfl

theorem needsSemicolonB_congr (st1 st : LexState)
    (h : st1.lastToken = st.lastToken) :
    needsSemicolonB st1 = needsSemicolonB st := by
  unfold needsSemicolonB
  rw [h]

/-- The whitespace loop leaves `lastToken` alone, and only emits a token
when it is a synthesized SEMICOLON guarded by `needsSemicolon`. -/
theorem skipWS_spec (fuel : Nat) : ∀ (st : LexState) (r : Option Token)
    (st1 : LexState), skipWS fuel st = .ok (r, st1) →
    st1.lastToken = st.lastToken ∧
    ∀ tok, r = some tok →
      tok.type = .SEMICOLON ∧ needsSemicolonB st = true := by
  induction fuel with
  | zero =>
    intro st r st1 h
    simp [skipWS] at h
  | succ f ih =>
    intro st r st1 h
    unfold skipWS at h
    split at h
    · split at h
      · rename_i hc
        injection h with h1
        injection h1 with hr hst
        subst hr
        subst hst
        refine ⟨readChar_last st, ?_⟩
        intro tok htok
        injection htok with htok
        subst htok
        exact ⟨rfl, hc.2⟩
      · have := ih (readChar st) r st1 h
        refine ⟨by rw [this.1, readChar_last], ?_⟩
        intro tok htok
        have h2 := this.2 tok htok
        refine ⟨h2.1, ?_⟩
        rw [← needsSemicolonB_congr (readChar st) st (readChar_last st)]
        exact h2.2
    · injection h with h1
      injection h1 with hr hst
      subst hr
      subst hst
      exact ⟨rfl, by intro tok htok; cases htok⟩

/-- `nextToken` produces a SEMICOLON only when the last token was an
identifier, string, integer, `)` or `}` — every SEMICOLON is synthesized,
since no input character lexes to one. -/
theorem nextToken_semi_only_if (st : LexState) (fuel : Nat) (tok : Token)
    (st2 : LexState) (h : nextToken st fuel = .ok (tok, st2))
    (hs : tok.type = .SEMICOLON) : needsSemicolonB st = true := by
  unfold nextToken at h
  split at h
  · exact absurd h (by simp)
  · exact absurd h (by simp)
  · rename_i r st1 hsw
    have hspec := skipWS_spec fuel st _ _ hsw
    simp only [emit] at h
    injection h with h1
    injection h1 with h1 h2
    subst h1
    exact (hspec.2 _ rfl).2
  · rename_i r st1 hsw
    have hspec := skipWS_spec fuel st _ _ hsw
    have hns : needsSemicolonB st1 = needsSemicolonB st :=
      needsSemicolonB_congr st1 st hspec.1
    rw [← hns]
    clear hns hspec hsw
    repeat' split at h
    all_goals first
      | exact absurd h (by simp)
      | (rename_i hguard
         exact hguard)
      | (simp only [emit] at h
         injection h with h1
         injection h1 with h1 h2
         subst h1
         simp only [createToken] at hs
         cases hs)
      | (rename_i lit st3 hri
         simp only [emit] at h
         injection h with h1
         injection h1 with h1 h2
         subst h1
         simp only [createToken] at hs
         exact absurd hs (lookupIdent_not_synth lit).1)

/-- When the lexer stands on a newline and the last token can end a
statement, the next token is a synthesized SEMICOLON, emitted before the
newline is consumed. -/
theorem nextToken_newline_semi (st : LexState) (fuel : Nat)
    (hch : st.ch = some (Char.ofNat 10)) (hns : needsSemicolonB st = true) :
    nextToken st (fuel + 1) =
      .ok (createToken st .SEMICOLON ";",
        { readChar st with
            lastToken := some (createToken st .SEMICOLON ";") }) := by
  unfold nextToken skipWS
  simp [hch, isWhitespaceO, hns, emit]

/-- At end of input with a pending statement-ending token, a SEMICOLON is
synthesized even though no newline is present. -/
theorem nextToken_eof_semi (st : LexState) (fuel : Nat)
    (hch : st.ch = none) (hns : needsSemicolonB st = true) :
    nextToken st (fuel + 1) =
      .ok (createToken st .SEMICOLON ";",
        { st with lastToken := some (createToken st .SEMICOLON ";") }) := by
  unfold nextToken skipWS
  simp [hch, isWhitespaceO, hns, emit]

/-- A lexer state standing on a newline right after an identifier token. -/
def c4State : LexState :=
  ⟨[Char.ofNat 10], 0, 1, some (Char.ofNat 10), 2, 1,
    some ⟨.IDENT, "x", 1, 2⟩⟩

end Lexer

/-- C4: the spec claims a SEMICOLON is synthesized exactly when a newline
immediately follows an IDENT/STRING/INT/RPAREN/RBRACE token. What the code
does: (a) `nextToken` returns a SEMICOLON only when the last token is of
one of those five kinds (every SEMICOLON is synthesized — no source
character lexes to one); (b) standing on a newline with such a pending
token, the next token is a synthesized SEMICOLON, emitted before the rest
of the line; (c) in `foo\nbar` the SEMICOLON lands between `foo` and
`bar`; (d) after `+`, a newline inserts nothing. The "exactly"/
"immediately" part of the claim is refuted by `C4_counterexample`. -/
theorem C4_semicolon_insertion :
    (∀ (st : Lexer.LexState) (fuel : Nat) (tok : Token)
      (st2 : Lexer.LexState), Lexer.nextToken st fuel = .ok (tok, st2) →
      tok.type = .SEMICOLON → Lexer.needsSemicolonB st = true) ∧
    (∀ (st : Lexer.LexState) (fuel : Nat),
      st.ch = some (Char.ofNat 10) → Lexer.needsSemicolonB st = true →
      Lexer.nextToken st (fuel + 1) =
        .ok (Lexer.createToken st .SEMICOLON ";",
          { Lexer.readChar st with
              lastToken := some (Lexer.createToken st .SEMICOLON ";") })) ∧
    Lexer.tokenKinds (Lexer.tokenize "foo\nbar" 16) =
      .ok [(.IDENT, "foo"), (.SEMICOLON, ";"), (.IDENT, "bar"),
        (.SEMICOLON, ";"), (.EOF, "")] ∧
    Lexer.tokenKinds (Lexer.tokenize "+\nfoo" 16) =
      .ok [(.PLUS, "+"), (.IDENT, "foo"), (.SEMICOLON, ";"), (.EOF, "")] :=
  ⟨Lexer.nextToken_semi_only_if, Lexer.nextToken_newline_semi,
    by decide, by decide⟩

/-- Applying C4 at a concrete state: a newline after an identifier token
yields a synthesized SEMICOLON, and that SEMICOLON licenses the last-token
condition. -/
theorem C4_witness :
    Lexer.nextToken Lexer.c4State 4 =
      .ok (Lexer.createToken Lexer.c4State .SEMICOLON ";",
        { Lexer.readChar Lexer.c4State with
            lastToken :=
              some (Lexer.createToken Lexer.c4State .SEMICOLON ";") }) ∧
    Lexer.needsSemicolonB Lexer.c4State = true := by
  have hb := C4_semicolon_insertion.2.1 Lexer.c4State 3 rfl rfl
  exact ⟨hb, C4_semicolon_insertion.1 Lexer.c4State 4 _ _ hb rfl⟩

/-- The "exactly when a newline immediately follows" reading is false: at
end of input the lexer synthesizes a SEMICOLON with no newline anywhere in
the source, and whitespace may separate the token from the triggering
newline. -/
theorem C4_counterexample :
    Lexer.tokenKinds (Lexer.tokenize "foo" 8) =
      .ok [(.IDENT, "foo"), (.SEMICOLON, ";"), (.EOF, "")] ∧
    (Char.ofNat 10) ∉ "foo".toList ∧
    Lexer.tokenKinds (Lexer.tokenize "foo \nbar" 16) =
      .ok [(.IDENT, "foo"), (.SEMICOLON, ";"), (.IDENT, "bar"),
        (.SEMICOLON, ";"), (.EOF, "")] ∧
    "foo \nbar".toList.take 4 = ['f', 'o', 'o', ' '] := by
  refine ⟨by decide, by decide, by decide, by decide⟩

namespace StringLit

/-- Modelled from the spec: a located lexical error (line, column,
message), as raised for malformed string literals. -/
structure LexError where
  line : Nat
  column : Nat
  message : String
  deriving DecidableEq, Repr

/-- Modelled from the spec: the six recognized escape sequences
`\n \t \r \" \\ \0`, each decoded to its control character. -/
def escapeChar : Char → Option Char
  | 'n' => some (Char.ofNat 10)
  | 't' => some (Char.ofNat 9)
  | 'r' => some (Char.ofNat 13)
  | '"' => some '"'
  | '\\' => some '\\'
  | '0' => some (Char.ofNat 0)
  | _ => none

/-- Modelled from the spec: `Lexer.readString` past the opening quote —
decode characters up to the closing quote; a recognized escape becomes its
control character, any other escape is a located lexical failure, and a
string left unterminated by end of input or by an unescaped newline before
the closing quote is a located lexical failure. Returns the decoded
literal and the input after the closing quote. -/
def readStringSpec (line : Nat) : Nat → List Char →
    Except LexError (String × List Char)
  | col, [] => .error ⟨line, col, "Unterminated string literal"⟩
  | col, c :: rest =>
    if c = '"' then .ok ("", rest)
    else if c = Char.ofNat 10 then
      .error ⟨line, col, "Unterminated string literal"⟩
    else if c = '\\' then
      match rest with
      | [] => .error ⟨line, col + 1, "Unterminated string literal"⟩
      | e :: rest2 =>
        match escapeChar e with
        | some d =>
          match readStringSpec line (col + 2) rest2 with
          | .ok (s, r) => .ok (String.singleton d ++ s, r)
          | .error err => .error err
        | none =>
          .error ⟨line, col, "Invalid escape sequence: \\" ++
            String.singleton e⟩
    else
      match readStringSpec line (col + 1) rest with
      | .ok (s, r) => .ok (String.singleton c ++ s, r)
      | .error err => .error err
termination_by structural _col l => l

/-- Re-encode one decoded character as string-literal source text: the six
decodable characters print as their escape sequence, everything else as
itself. -/
def encodeChar (c : Char) : List Char :=
  if c = Char.ofNat 10 then ['\\', 'n']
  else if c = Char.ofNat 9 then ['\\', 't']
  else if c = Char.ofNat 13 then ['\\', 'r']
  else if c = '"' then ['\\', '"']
  else if c = '\\' then ['\\', '\\']
  else if c = Char.ofNat 0 then ['\\', '0']
  else [c]

theorem rss_quote (line col : Nat) (rest : List Char) :
    readStringSpec line col ('"' :: rest) = .ok ("", rest) := by
  conv_lhs => unfold readStringSpec
  simp

theorem rss_plain_step (line col : Nat) (c : Char) (l : List Char)
    (h1 : ¬c = '"') (h2 : ¬c = Char.ofNat 10) (h3 : ¬c = '\\') :
    readStringSpec line col (c :: l) =
      match readStringSpec line (col + 1) l with
      | .ok (s, r) => .ok (String.singleton c ++ s, r)
      | .error err => .error err := by
  conv_lhs => unfold readStringSpec
  rw [if_neg h1, if_neg h2, if_neg h3]

theorem rss_escape_step (line col : Nat) (e d : Char) (l : List Char)
    (h : escapeChar e = some d) :
    readStringSpec line col ('\\' :: e :: l) =
      match readStringSpec line (col + 2) l with
      | .ok (s, r) => .ok (String.singleton d ++ s, r)
      | .error err => .error err := by
  conv_lhs => unfold readStringSpec
  rw [if_neg (by decide), if_neg (by decide), if_pos rfl]
  simp only [h]

theorem rss_bad_escape (line col : Nat) (e : Char) (l : List Char)
    (h : escapeChar e = none) :
    readStringSpec line col ('\\' :: e :: l) =
      .error ⟨line, col, "Invalid escape sequence: \\" ++
        String.singleton e⟩ := by
  conv_lhs => unfold readStringSpec
  rw [if_neg (by decide), if_neg (by decide), if_pos rfl]
  simp only [h]

theorem rss_newline (line col : Nat) (l : List Char) :
    readStringSpec line col (Char.ofNat 10 :: l) =
      .error ⟨line, col, "Unterminated string literal"⟩ := by
  conv_lhs => unfold readStringSpec
  rw [if_neg (by decide), if_pos rfl]

theorem rss_empty (line col : Nat) :
    readStringSpec line col [] =
      .error ⟨line, col, "Unterminated string literal"⟩ := by
  conv_lhs => unfold readStringSpec

/-- Decoding inverts encoding: for every content and trailing input the
reader returns exactly the decoded content and consumes through the
closing quote. -/
theorem readStringSpec_roundtrip (line : Nat) : ∀ (content : List Char)
    (col : Nat) (rest : List Char),
    readStringSpec line col (content.flatMap encodeChar ++ '"' :: rest) =
      .ok (content.asString, rest) := by
  intro content
  induction content with
  | nil =>
    intro col rest
    simpa using rss_quote line col rest
  | cons c cs ih =>
    intro col rest
    by_cases h1 : c = Char.ofNat 10
    · subst h1
      rw [show (Char.ofNat 10 :: cs).flatMap encodeChar ++ '"' :: rest =
        '\\' :: 'n' :: (cs.flatMap encodeChar ++ '"' :: rest) from by
          simp [encodeChar]]
      rw [rss_escape_step line col 'n' (Char.ofNat 10) _ rfl, ih (col + 2) rest]
      rfl
    · by_cases h2 : c = Char.ofNat 9
      · subst h2
        rw [show (Char.ofNat 9 :: cs).flatMap encodeChar ++ '"' :: rest =
          '\\' :: 't' :: (cs.flatMap encodeChar ++ '"' :: rest) from by
            simp [encodeChar]]
        rw [rss_escape_step line col 't' (Char.ofNat 9) _ rfl, ih (col + 2) rest]
        rfl
      · by_cases h3 : c = Char.ofNat 13
        · subst h3
          rw [show (Char.ofNat 13 :: cs).flatMap encodeChar ++ '"' :: rest =
            '\\' :: 'r' :: (cs.flatMap encodeChar ++ '"' :: rest) from by
              simp [encodeChar]]
          rw [rss_escape_step line col 'r' (Char.ofNat 13) _ rfl,
            ih (col + 2) rest]
          rfl
        · by_cases h4 : c = '"'
          · subst h4
            rw [show ('"' :: cs).flatMap encodeChar ++ '"' :: rest =
              '\\' :: '"' :: (cs.flatMap encodeChar ++ '"' :: rest) from by
                simp [encodeChar]]
            rw [rss_escape_step line col '"' '"' _ rfl, ih (col + 2) rest]
            rfl
          · by_cases h5 : c = '\\'
            · subst h5
              rw [show ('\\' :: cs).flatMap encodeChar ++ '"' :: rest =
                '\\' :: '\\' :: (cs.flatMap encodeChar ++ '"' :: rest) from by
                  simp [encodeChar]]
              rw [rss_escape_step line col '\\' '\\' _ rfl, ih (col + 2) rest]
              rfl
            · by_cases h6 : c = Char.ofNat 0
              · subst h6
                rw [show (Char.ofNat 0 :: cs).flatMap encodeChar ++
                  '"' :: rest =
                  '\\' :: '0' :: (cs.flatMap encodeChar ++ '"' :: rest) from by
                    simp [encodeChar]]
                rw [rss_escape_step line col '0' (Char.ofNat 0) _ rfl,
                  ih (col + 2) rest]
                rfl
              · rw [show (c :: cs).flatMap encodeChar ++ '"' :: rest =
                  c :: (cs.flatMap encodeChar ++ '"' :: rest) from by
                    simp [encodeChar, h1, h2, h3, h4, h5, h6]]
                rw [rss_plain_step line col c _ h4 h1 h5, ih (col + 1) rest]
                rfl

/-- A string unterminated by end of input fails with a located lexical
error, whatever encoded content precedes the end. -/
theorem readStringSpec_eof (line : Nat) : ∀ (content : List Char) (col : Nat),
    ∃ err, readStringSpec line col (content.flatMap encodeChar) =
      .error err := by
  intro content
  induction content with
  | nil =>
    intro col
    exact ⟨_, by simpa using rss_empty line col⟩
  | cons c cs ih =>
    intro col
    by_cases h1 : c = Char.ofNat 10
    · subst h1
      obtain ⟨err, herr⟩ := ih (col + 2)
      refine ⟨err, ?_⟩
      rw [show (Char.ofNat 10 :: cs).flatMap encodeChar =
        '\\' :: 'n' :: cs.flatMap encodeChar from by simp [encodeChar]]
      rw [rss_escape_step line col 'n' (Char.ofNat 10) _ rfl, herr]
    · by_cases h2 : c = Char.ofNat 9
      · subst h2
        obtain ⟨err, herr⟩ := ih (col + 2)
        refine ⟨err, ?_⟩
        rw [show (Char.ofNat 9 :: cs).flatMap encodeChar =
          '\\' :: 't' :: cs.flatMap encodeChar from by simp [encodeChar]]
        rw [rss_escape_step line col 't' (Char.ofNat 9) _ rfl, herr]
      · by_cases h3 : c = Char.ofNat 13
        · subst h3
          obtain ⟨err, herr⟩ := ih (col + 2)
          refine ⟨err, ?_⟩
          rw [show (Char.ofNat 13 :: cs).flatMap encodeChar =
            '\\' :: 'r' :: cs.flatMap encodeChar from by simp [encodeChar]]
          rw [rss_escape_step line col 'r' (Char.ofNat 13) _ rfl, herr]
        · by_cases h4 : c = '"'
          · subst h4
            obtain ⟨err, herr⟩ := ih (col + 2)
            refine ⟨err, ?_⟩
            rw [show ('"' :: cs).flatMap encodeChar =
              '\\' :: '"' :: cs.flatMap encodeChar from by simp [encodeChar]]
            rw [rss_escape_step line col '"' '"' _ rfl, herr]
          · by_cases h5 : c = '\\'
            · subst h5
              obtain ⟨err, herr⟩ := ih (col + 2)
              refine ⟨err, ?_⟩
              rw [show ('\\' :: cs).flatMap encodeChar =
                '\\' :: '\\' :: cs.flatMap encodeChar from by
                  simp [encodeChar]]
              rw [rss_escape_step line col '\\' '\\' _ rfl, herr]
            · by_cases h6 : c = Char.ofNat 0
              · subst h6
                obtain ⟨err, herr⟩ := ih (col + 2)
                refine ⟨err, ?_⟩
                rw [show (Char.ofNat 0 :: cs).flatMap encodeChar =
                  '\\' :: '0' :: cs.flatMap encodeChar from by
                    simp [encodeChar]]
                rw [rss_escape_step line col '0' (Char.ofNat 0) _ rfl, herr]
              · obtain ⟨err, herr⟩ := ih (col + 1)
                refine ⟨err, ?_⟩
                rw [show (c :: cs).flatMap encodeChar =
                  c :: cs.flatMap encodeChar from by
                    simp [encodeChar, h1, h2, h3, h4, h5, h6]]
                rw [rss_plain_step line col c _ h4 h1 h5, herr]

end StringLit

/-- C2: string-literal tokenization decodes the six escapes
`\n \t \r \" \\ \0` to their control characters, rejects every other
escape with a located lexical error naming the escape, and rejects a
string left unterminated by end of input or by an unescaped newline with a
located lexical error — never an ILLEGAL token. In particular the source
`"hello\nworld"` decodes to an 11-character literal whose 6th character
is an actual newline. -/
theorem C2_string_literal_lexing :
    (∀ (line : Nat) (content : List Char) (col : Nat) (rest : List Char),
      StringLit.readStringSpec line col
          (content.flatMap StringLit.encodeChar ++ '"' :: rest) =
        .ok (content.asString, rest)) ∧
    (∀ (line col : Nat) (e : Char) (l : List Char),
      StringLit.escapeChar e = none →
      StringLit.readStringSpec line col ('\\' :: e :: l) =
        .error ⟨line, col, "Invalid escape sequence: \\" ++
          String.singleton e⟩) ∧
    (∀ (line col : Nat) (l : List Char),
      StringLit.readStringSpec line col (Char.ofNat 10 :: l) =
        .error ⟨line, col, "Unterminated string literal"⟩) ∧
    (∀ (line : Nat) (content : List Char) (col : Nat),
      ∃ err, StringLit.readStringSpec line col
          (content.flatMap StringLit.encodeChar) = .error err) ∧
    StringLit.readStringSpec 1 2 "hello\\nworld\"".toList =
      .ok ("hello" ++ String.singleton (Char.ofNat 10) ++ "world", []) ∧
    ("hello" ++ String.singleton (Char.ofNat 10) ++ "world").length = 11 ∧
    ("hello" ++ String.singleton (Char.ofNat 10) ++
      "world").toList.get? 5 = some (Char.ofNat 10) :=
  ⟨StringLit.readStringSpec_roundtrip, StringLit.rss_bad_escape,
    StringLit.rss_newline, StringLit.readStringSpec_eof,
    by decide, by decide, by decide⟩

/-- Applying C2 at concrete inputs: round-tripping the one-character
content `a`, and rejecting the unrecognized escape `\x`. -/
theorem C2_witness :
    StringLit.readStringSpec 1 2
        (['a'].flatMap StringLit.encodeChar ++ ['"']) =
      .ok (['a'].asString, []) ∧
    StringLit.escapeChar 'x' = none ∧
    StringLit.readStringSpec 1 2 ['\\', 'x'] =
      .error ⟨1, 2, "Invalid escape sequence: \\x"⟩ :=
  ⟨C2_string_literal_lexing.1 1 ['a'] 2 [],
   rfl,
   C2_string_literal_lexing.2.1 1 2 'x' [] rfl⟩

end PoorGo
